import Mathlib

/-!
Shallow embedding of the CorePulse ECS core: EntityManager (src/src/Entity.cpp,
src/include/Entity.h), ComponentArray and ComponentManager (src/include/Component.h),
SystemManager (src/include/System.h) and the World facade (src/include/World.h,
src/src/World.cpp).

Modelling conventions:
- C++ std::vector used as a stack (push_back / back / pop_back) is a Lean list
  whose head corresponds to the vector's back.
- std::unordered_map is an association list (when the code iterates over it) or
  an Option-valued function (for the per-array entity/index maps); operator[]
  reads that default-construct a missing value are modelled as defaulted lookups,
  which is observationally equal because the inserted default is what every later
  defaulted lookup returns.
- std::set membership is a Lean list used only through contains / append-if-absent /
  filter, which is set semantics.
- throwing functions return Except String; a thrown exception leaves the C++
  object unchanged, which the *_run wrappers make explicit.
- uint32_t arithmetic on signatures is Nat arithmetic with an explicit % 2 ^ 32
  where the C++ can overflow; component kinds stay below 32 in every run we treat.
- virtual hook invocations (entity_added / entity_removed) are recorded in
  per-system event lists, so that a hook firing exactly once is an append of one
  element.
-/

namespace CorePulse

def NULL_ENTITY : Nat := 0

def MAX_ENTITIES : Nat := 10000

def MAX_COMPONENTS : Nat := 32

def UINT32_LIM : Nat := 2 ^ 32

/-- The uint32 value of the C++ expression 1 << k (signature bit for kind k). -/
def bitOf (k : Nat) : Nat := (1 <<< k) % UINT32_LIM

/-- The uint32 value of the C++ expression ~(1 << k), used by remove_component. -/
def clearMask (k : Nat) : Nat := (UINT32_LIM - 1) ^^^ bitOf k

/-- The EntityManager constructor pushes 1, 2, ..., MAX_ENTITIES-1 in order, so with
head-is-back orientation the initial free list is n, n-1, ..., 1. -/
def countdown : Nat → List Nat
  | 0 => []
  | n + 1 => (n + 1) :: countdown n

structure EntityManager where
  available_entities : List Nat
  signatures : Nat → Nat
  living_entity_count : Nat
  entities_created : Nat

def EntityManager.init : EntityManager :=
  { available_entities := countdown (MAX_ENTITIES - 1)
    signatures := fun _ => 0
    living_entity_count := 0
    entities_created := 0 }

def EntityManager.is_valid (m : EntityManager) (e : Nat) : Bool :=
  if e = NULL_ENTITY ∨ MAX_ENTITIES ≤ e then false
  else !(m.available_entities.contains e)

def EntityManager.create_entity (m : EntityManager) : Nat × EntityManager :=
  match m.available_entities with
  | [] => (NULL_ENTITY, m)
  | e :: rest =>
      (e, { m with
              available_entities := rest
              living_entity_count := m.living_entity_count + 1
              entities_created := m.entities_created + 1
              signatures := fun x => if x = e then 0 else m.signatures x })

def EntityManager.destroy_entity (m : EntityManager) (e : Nat) : EntityManager :=
  if m.is_valid e then
    { m with
        signatures := fun x => if x = e then 0 else m.signatures x
        available_entities := e :: m.available_entities
        living_entity_count := m.living_entity_count - 1 }
  else m

def EntityManager.set_signature (m : EntityManager) (e : Nat) (s : Nat) : EntityManager :=
  if m.is_valid e then
    { m with signatures := fun x => if x = e then s else m.signatures x }
  else m

def EntityManager.get_signature (m : EntityManager) (e : Nat) : Nat :=
  if m.is_valid e then m.signatures e else 0

structure ComponentArray (V : Type) where
  component_array : Nat → V
  entity_to_index_map : Nat → Option Nat
  index_to_entity_map : Nat → Option Nat
  size : Nat

def ComponentArray.empty {V : Type} [Inhabited V] : ComponentArray V :=
  { component_array := fun _ => default
    entity_to_index_map := fun _ => none
    index_to_entity_map := fun _ => none
    size := 0 }

def ComponentArray.insert_data {V : Type} (a : ComponentArray V) (entity : Nat)
    (component : V) : ComponentArray V :=
  match a.entity_to_index_map entity with
  | some index =>
      { a with component_array := fun j => if j = index then component else a.component_array j }
  | none =>
      let new_index := a.size
      { component_array := fun j => if j = new_index then component else a.component_array j
        entity_to_index_map := fun x => if x = entity then some new_index else a.entity_to_index_map x
        index_to_entity_map := fun j => if j = new_index then some entity else a.index_to_entity_map j
        size := a.size + 1 }

def ComponentArray.remove_data {V : Type} (a : ComponentArray V) (entity : Nat) :
    ComponentArray V :=
  match a.entity_to_index_map entity with
  | none => a
  | some index_of_removed =>
      let index_of_last := a.size - 1
      let entity_of_last := (a.index_to_entity_map index_of_last).getD NULL_ENTITY
      { component_array := fun j =>
          if j = index_of_removed then a.component_array index_of_last else a.component_array j
        entity_to_index_map := fun x =>
          if x = entity then none
          else if x = entity_of_last then some index_of_removed
          else a.entity_to_index_map x
        index_to_entity_map := fun j =>
          if j = index_of_last then none
          else if j = index_of_removed then some entity_of_last
          else a.index_to_entity_map j
        size := a.size - 1 }

def ComponentArray.get_data {V : Type} (a : ComponentArray V) (entity : Nat) :
    Except String V :=
  match a.entity_to_index_map entity with
  | none => .error "Entity does not have this component"
  | some index => .ok (a.component_array index)

def ComponentArray.has_data {V : Type} (a : ComponentArray V) (entity : Nat) : Bool :=
  (a.entity_to_index_map entity).isSome

def ComponentArray.entity_destroyed {V : Type} (a : ComponentArray V) (entity : Nat) :
    ComponentArray V :=
  if a.has_data entity then a.remove_data entity else a

structure ComponentManager (V : Type) where
  component_types : List (Nat × Nat)
  component_arrays : List (Nat × ComponentArray V)
  next_component_type : Nat

def ComponentManager.init {V : Type} : ComponentManager V :=
  { component_types := [], component_arrays := [], next_component_type := 0 }

def ComponentManager.register_component {V : Type} [Inhabited V] (cm : ComponentManager V)
    (tn : Nat) : ComponentManager V :=
  if (cm.component_types.lookup tn).isSome then cm
  else
    { component_types := cm.component_types ++ [(tn, cm.next_component_type)]
      component_arrays := cm.component_arrays ++ [(tn, ComponentArray.empty)]
      next_component_type := cm.next_component_type + 1 }

def ComponentManager.get_component_type {V : Type} [Inhabited V] (cm : ComponentManager V)
    (tn : Nat) : Nat × ComponentManager V :=
  let cm2 := cm.register_component tn
  ((cm2.component_types.lookup tn).getD 0, cm2)

def updateArrayAt {V : Type} (l : List (Nat × ComponentArray V)) (tn : Nat)
    (f : ComponentArray V → ComponentArray V) : List (Nat × ComponentArray V) :=
  l.map fun p => (p.1, if p.1 = tn then f p.2 else p.2)

def ComponentManager.add_component {V : Type} [Inhabited V] (cm : ComponentManager V)
    (tn : Nat) (entity : Nat) (component : V) : ComponentManager V :=
  let cm2 := cm.register_component tn
  { cm2 with
      component_arrays := updateArrayAt cm2.component_arrays tn fun a =>
        a.insert_data entity component }

def ComponentManager.remove_component {V : Type} [Inhabited V] (cm : ComponentManager V)
    (tn : Nat) (entity : Nat) : ComponentManager V :=
  let cm2 := cm.register_component tn
  { cm2 with
      component_arrays := updateArrayAt cm2.component_arrays tn fun a => a.remove_data entity }

def ComponentManager.has_component {V : Type} (cm : ComponentManager V) (tn : Nat)
    (entity : Nat) : Except String Bool :=
  match cm.component_arrays.lookup tn with
  | none => .error "Component type not registered"
  | some a => .ok (a.has_data entity)

def ComponentManager.entity_destroyed {V : Type} (cm : ComponentManager V) (entity : Nat) :
    ComponentManager V :=
  { cm with component_arrays := cm.component_arrays.map fun p => (p.1, p.2.entity_destroyed entity) }

structure SystemState where
  entities : List Nat
  added_events : List Nat
  removed_events : List Nat

def SystemState.initial : SystemState := ⟨[], [], []⟩

structure SystemManager where
  signatures : List (Nat × Nat)
  systems : List (Nat × SystemState)

def SystemManager.init : SystemManager := ⟨[], []⟩

def setAssoc {A : Type} (l : List (Nat × A)) (tn : Nat) (a : A) :
    List (Nat × A) :=
  match l with
  | [] => [(tn, a)]
  | p :: rest => if p.1 = tn then (tn, a) :: rest else p :: setAssoc rest tn a

def SystemManager.register_system (sm : SystemManager) (tn : Nat) : SystemManager :=
  if (sm.systems.lookup tn).isSome then sm
  else { sm with systems := sm.systems ++ [(tn, SystemState.initial)] }

def SystemManager.set_signature (sm : SystemManager) (tn : Nat) (sig : Nat) :
    Except String SystemManager :=
  if (sm.systems.lookup tn).isSome then
    .ok { sm with signatures := setAssoc sm.signatures tn sig }
  else .error "System not registered before setting signature"

/-- The state of the registry after a set_signature call: the C++ throw leaves the
object unchanged. -/
def SystemManager.set_signature_run (sm : SystemManager) (tn : Nat) (sig : Nat) :
    SystemManager :=
  match sm.set_signature tn sig with
  | .ok sm2 => sm2
  | .error _ => sm

/-- Body of the per-system loop of SystemManager::entity_destroyed: erase the
entity from the membership set and fire entity_removed when it was a member. -/
def destroyStep (entity : Nat) (s : SystemState) : SystemState :=
  if s.entities.contains entity then
    { s with
        entities := s.entities.filter fun x => x != entity
        removed_events := s.removed_events ++ [entity] }
  else s

def SystemManager.entity_destroyed (sm : SystemManager) (entity : Nat) : SystemManager :=
  { sm with systems := sm.systems.map fun p => (p.1, destroyStep entity p.2) }

/-- Body of the per-system loop of SystemManager::entity_signature_changed, for a
system whose required signature is ssig. -/
def escStep (ssig : Nat) (entity : Nat) (esig : Nat) (s : SystemState) : SystemState :=
  if esig &&& ssig = ssig then
    if s.entities.contains entity then s
    else
      { s with
          entities := s.entities ++ [entity]
          added_events := s.added_events ++ [entity] }
  else
    if s.entities.contains entity then
      { s with
          entities := s.entities.filter fun x => x != entity
          removed_events := s.removed_events ++ [entity] }
    else s

def SystemManager.entity_signature_changed (sm : SystemManager) (entity : Nat)
    (esig : Nat) : SystemManager :=
  { sm with
      systems := sm.systems.map fun p =>
        (p.1, escStep ((sm.signatures.lookup p.1).getD 0) entity esig p.2) }

structure World (V : Type) where
  entity_manager : EntityManager
  component_manager : ComponentManager V
  system_manager : SystemManager

def World.create_entity {V : Type} (w : World V) : Nat × World V :=
  let r := w.entity_manager.create_entity
  (r.1, { w with entity_manager := r.2 })

def World.destroy_entity {V : Type} (w : World V) (entity : Nat) : World V :=
  if w.entity_manager.is_valid entity then
    { entity_manager := w.entity_manager.destroy_entity entity
      component_manager := w.component_manager.entity_destroyed entity
      system_manager := w.system_manager.entity_destroyed entity }
  else w

def World.add_component {V : Type} [Inhabited V] (w : World V) (tn : Nat) (entity : Nat)
    (component : V) : World V :=
  let cm := w.component_manager.add_component tn entity component
  let kt := cm.get_component_type tn
  let sig := w.entity_manager.get_signature entity ||| bitOf kt.1
  { entity_manager := w.entity_manager.set_signature entity sig
    component_manager := kt.2
    system_manager := w.system_manager.entity_signature_changed entity sig }

def World.remove_component {V : Type} [Inhabited V] (w : World V) (tn : Nat)
    (entity : Nat) : World V :=
  let cm := w.component_manager.remove_component tn entity
  let kt := cm.get_component_type tn
  let sig := w.entity_manager.get_signature entity &&& clearMask kt.1
  { entity_manager := w.entity_manager.set_signature entity sig
    component_manager := kt.2
    system_manager := w.system_manager.entity_signature_changed entity sig }

def World.has_component {V : Type} (w : World V) (tn : Nat) (entity : Nat) :
    Except String Bool :=
  w.component_manager.has_component tn entity

def World.get_signature {V : Type} (w : World V) (entity : Nat) : Nat :=
  w.entity_manager.get_signature entity

def registerKinds {V : Type} [Inhabited V] (cm : ComponentManager V) :
    List Nat → ComponentManager V
  | [] => cm
  | tn :: rest => registerKinds (cm.register_component tn) rest

def configureSystems (sm : SystemManager) : List (Nat × Nat) → SystemManager
  | [] => sm
  | p :: rest => configureSystems ((sm.register_system p.1).set_signature_run p.1 p.2) rest

/-- A world in its startup configuration: component kinds registered and systems
registered with their required signatures bound, before any entity exists. -/
def World.configure {V : Type} [Inhabited V] (ks : List Nat)
    (ss : List (Nat × Nat)) : World V :=
  { entity_manager := EntityManager.init
    component_manager := registerKinds ComponentManager.init ks
    system_manager := configureSystems SystemManager.init ss }

/-- Worlds reachable from a startup configuration by entity lifecycle and component
mutation calls, where mutations are made on live entities only and the number of
distinct component kinds stays within the signature width. -/
inductive WReach {V : Type} [Inhabited V] : World V → Prop where
  | base (ks : List Nat) (ss : List (Nat × Nat))
      (hks : ks.length ≤ MAX_COMPONENTS) : WReach (World.configure ks ss)
  | create (w : World V) : WReach w → WReach (w.create_entity).2
  | destroy (w : World V) (e : Nat) : WReach w → WReach (w.destroy_entity e)
  | add (w : World V) (tn : Nat) (e : Nat) (v : V) : WReach w →
      w.entity_manager.is_valid e = true →
      ((w.component_manager.component_types.lookup tn).isSome = true ∨
        w.component_manager.next_component_type < MAX_COMPONENTS) →
      WReach (w.add_component tn e v)
  | remove (w : World V) (tn : Nat) (e : Nat) : WReach w →
      w.entity_manager.is_valid e = true →
      ((w.component_manager.component_types.lookup tn).isSome = true ∨
        w.component_manager.next_component_type < MAX_COMPONENTS) →
      WReach (w.remove_component tn e)

inductive EOp where
  | create : EOp
  | destroy : Nat → EOp

def EntityManager.applyOp (m : EntityManager) : EOp → EntityManager
  | .create => (m.create_entity).2
  | .destroy e => m.destroy_entity e

def EntityManager.runOps (m : EntityManager) : List EOp → EntityManager
  | [] => m
  | op :: rest => (m.applyOp op).runOps rest

def countCreates : List EOp → Nat
  | [] => 0
  | .create :: rest => countCreates rest + 1
  | .destroy _ :: rest => countCreates rest

def countDestroys : List EOp → Nat
  | [] => 0
  | .create :: rest => countDestroys rest
  | .destroy _ :: rest => countDestroys rest + 1

/-- Run a call sequence and count the calls that actually take effect: creates that
return a non-null entity and destroys whose argument is live at the call. -/
def EntityManager.runCounting (m : EntityManager) : List EOp → EntityManager × Nat × Nat
  | [] => (m, 0, 0)
  | .create :: rest =>
      let r := m.create_entity
      let t := r.2.runCounting rest
      (t.1, if r.1 = NULL_ENTITY then t.2.1 else t.2.1 + 1, t.2.2)
  | .destroy e :: rest =>
      let ok := m.is_valid e
      let t := (m.destroy_entity e).runCounting rest
      (t.1, t.2.1, if ok then t.2.2 + 1 else t.2.2)

def createN (m : EntityManager) : Nat → EntityManager
  | 0 => m
  | n + 1 => ((createN m n).create_entity).2

inductive EMReach : EntityManager → Prop where
  | init : EMReach EntityManager.init
  | create (m : EntityManager) : EMReach m → EMReach (m.create_entity).2
  | destroy (m : EntityManager) (e : Nat) : EMReach m → EMReach (m.destroy_entity e)

/-- Structural facts every reachable EntityManager satisfies. -/
def EMInv (m : EntityManager) : Prop :=
  m.available_entities.Nodup ∧
  (∀ e ∈ m.available_entities, 1 ≤ e ∧ e < MAX_ENTITIES) ∧
  m.living_entity_count + m.available_entities.length = MAX_ENTITIES - 1

/-- Well-formedness of one dense component array: the two maps are inverse and the
index map is defined exactly on the occupied range. -/
structure CAWF {V : Type} (a : ComponentArray V) : Prop where
  e2i_i2e : ∀ e i, a.entity_to_index_map e = some i → a.index_to_entity_map i = some e
  i2e_e2i : ∀ i e, a.index_to_entity_map i = some e → a.entity_to_index_map e = some i
  dom : ∀ i, (a.index_to_entity_map i).isSome = true ↔ i < a.size

/-- Well-formedness of the component manager registry. -/
structure CMWF {V : Type} (cm : ComponentManager V) : Prop where
  keys_nodup : (cm.component_types.map Prod.fst).Nodup
  vals_lt : ∀ p ∈ cm.component_types, p.2 < cm.next_component_type
  vals_inj : ∀ p ∈ cm.component_types, ∀ q ∈ cm.component_types, p.2 = q.2 → p.1 = q.1
  arrays_keys : cm.component_arrays.map Prod.fst = cm.component_types.map Prod.fst
  arrays_wf : ∀ p ∈ cm.component_arrays, CAWF p.2

def cmHas {V : Type} (cm : ComponentManager V) (tn : Nat) (e : Nat) : Bool :=
  match cm.component_arrays.lookup tn with
  | some a => a.has_data e
  | none => false

/-- The invariant carried by every reachable world: registry well-formedness, kind
indices within the mask width, signature bits bounded by the number of registered
kinds, the signature-consistency property, and the membership-consistency property
for every system whose required signature is nonempty. -/
structure WInv {V : Type} (w : World V) : Prop where
  cmwf : CMWF w.component_manager
  next_le : w.component_manager.next_component_type ≤ MAX_COMPONENTS
  sig_bound : ∀ e j, (w.entity_manager.get_signature e).testBit j = true →
      j < w.component_manager.next_component_type
  sig_inv : ∀ tn k, w.component_manager.component_types.lookup tn = some k →
      ∀ e, cmHas w.component_manager tn e = (w.entity_manager.get_signature e).testBit k
  mem_inv : ∀ tn st, w.system_manager.systems.lookup tn = some st →
      (w.system_manager.signatures.lookup tn).getD 0 ≠ 0 →
      ∀ e, st.entities.contains e =
        decide (w.entity_manager.get_signature e &&&
            (w.system_manager.signatures.lookup tn).getD 0 =
          (w.system_manager.signatures.lookup tn).getD 0)

theorem MAX_ENTITIES_eq : MAX_ENTITIES = 10000 := rfl

theorem NULL_ENTITY_eq : NULL_ENTITY = 0 := rfl

theorem MAX_COMPONENTS_eq : MAX_COMPONENTS = 32 := rfl

theorem mem_countdown {n x : Nat} : x ∈ countdown n ↔ 1 ≤ x ∧ x ≤ n := by
  induction n with
  | zero => simp [countdown]; omega
  | succ n ih =>
      simp only [countdown, List.mem_cons, ih]
      omega

theorem countdown_length (n : Nat) : (countdown n).length = n := by
  induction n with
  | zero => rfl
  | succ n ih => simp [countdown, ih]

theorem countdown_nodup (n : Nat) : (countdown n).Nodup := by
  induction n with
  | zero => simp [countdown]
  | succ n ih =>
      rw [countdown, List.nodup_cons]
      exact ⟨fun h => by have := mem_countdown.1 h; omega, ih⟩

theorem create_entity_nil {m : EntityManager} (h : m.available_entities = []) :
    m.create_entity = (NULL_ENTITY, m) := by
  unfold EntityManager.create_entity
  rw [h]

theorem is_valid_iff {m : EntityManager} {e : Nat} :
    m.is_valid e = true ↔ e ≠ NULL_ENTITY ∧ e < MAX_ENTITIES ∧ e ∉ m.available_entities := by
  unfold EntityManager.is_valid
  by_cases h : e = NULL_ENTITY ∨ MAX_ENTITIES ≤ e
  · simp only [if_pos h]
    constructor
    · intro hf; exact absurd hf (by simp)
    · rintro ⟨h1, h2, _⟩
      exfalso
      simp only [NULL_ENTITY_eq, MAX_ENTITIES_eq] at h h1 h2
      omega
  · simp only [if_neg h]
    push_neg at h
    simp [List.elem_iff, h]

theorem is_valid_init (e : Nat) : EntityManager.init.is_valid e = false := by
  rw [Bool.eq_false_iff]
  intro hv
  obtain ⟨h1, h2, h3⟩ := is_valid_iff.1 hv
  apply h3
  show e ∈ countdown (MAX_ENTITIES - 1)
  simp only [NULL_ENTITY_eq] at h1
  simp only [MAX_ENTITIES_eq] at h2 ⊢
  exact mem_countdown.2 (by omega)

theorem get_signature_init (e : Nat) : EntityManager.init.get_signature e = 0 := by
  unfold EntityManager.get_signature
  rw [is_valid_init]
  simp

theorem set_signature_init (e : Nat) (s : Nat) :
    EntityManager.init.set_signature e s = EntityManager.init := by
  unfold EntityManager.set_signature
  rw [is_valid_init]
  simp

theorem emInv_init : EMInv EntityManager.init := by
  refine ⟨countdown_nodup _, fun e he => ?_, ?_⟩
  · have := mem_countdown.1 he
    simp only [MAX_ENTITIES_eq] at this ⊢
    omega
  · simp [EntityManager.init, countdown_length]

theorem emInv_create {m : EntityManager} (h : EMInv m) : EMInv (m.create_entity).2 := by
  obtain ⟨hn, hr, hl⟩ := h
  cases hav : m.available_entities with
  | nil =>
      simp only [EntityManager.create_entity, hav]
      exact ⟨hn, hr, hl⟩
  | cons e rest =>
      simp only [EntityManager.create_entity, hav]
      refine ⟨(hav ▸ hn).of_cons,
        fun x hx => hr x (by rw [hav]; exact List.mem_cons_of_mem _ hx), ?_⟩
      rw [hav] at hl
      simp only [List.length_cons] at hl
      simp only []
      omega

theorem living_pos_of_valid {m : EntityManager} {e : Nat} (h : EMInv m)
    (hv : m.is_valid e = true) : 1 ≤ m.living_entity_count := by
  obtain ⟨hn, hr, hl⟩ := h
  obtain ⟨h1, h2, h3⟩ := is_valid_iff.1 hv
  by_contra hc
  have hliv : m.living_entity_count = 0 := by omega
  have hlen : m.available_entities.length = MAX_ENTITIES - 1 := by omega
  have hsub : m.available_entities ⊆ countdown (MAX_ENTITIES - 1) := by
    intro x hx
    have hx2 := hr x hx
    refine mem_countdown.2 ?_
    simp only [MAX_ENTITIES_eq] at hx2 ⊢
    omega
  have hperm := (List.subperm_of_subset hn hsub).perm_of_length_le
    (by rw [hlen, countdown_length])
  apply h3
  apply hperm.mem_iff.2
  refine mem_countdown.2 ?_
  simp only [NULL_ENTITY_eq] at h1
  simp only [MAX_ENTITIES_eq] at h2 ⊢
  omega

theorem emInv_destroy {m : EntityManager} (e : Nat) (h : EMInv m) :
    EMInv (m.destroy_entity e) := by
  by_cases hv : m.is_valid e = true
  · have hliv := living_pos_of_valid h hv
    obtain ⟨hn, hr, hl⟩ := h
    obtain ⟨h1, h2, h3⟩ := is_valid_iff.1 hv
    simp only [EntityManager.destroy_entity, hv, if_true]
    refine ⟨List.nodup_cons.2 ⟨h3, hn⟩, ?_, ?_⟩
    · intro x hx
      rcases List.mem_cons.1 hx with rfl | hx2
      · simp only [NULL_ENTITY_eq] at h1
        omega
      · exact hr x hx2
    · simp only [List.length_cons]
      omega
  · rw [Bool.not_eq_true] at hv
    simp only [EntityManager.destroy_entity, hv, Bool.false_eq_true, if_false]
    exact h

theorem emReach_inv {m : EntityManager} (h : EMReach m) : EMInv m := by
  induction h with
  | init => exact emInv_init
  | create m _ ih => exact emInv_create ih
  | destroy m e _ ih => exact emInv_destroy e ih

/-- Claim C6: entity identifier recycling is immediate and LIFO with no generation
tag: after destroy_entity succeeds on a live entity e, the very next successful
create_entity returns exactly the same numeric value e, so a handle captured before
the destruction compares equal to the new entity. -/
theorem claim_C6_thm (m : EntityManager) (e : Nat) (h : m.is_valid e = true) :
    ((m.destroy_entity e).create_entity).1 = e := by
  simp [EntityManager.destroy_entity, h, EntityManager.create_entity]

/-- Witness for claim C6 at a concrete manager state. -/
theorem claim_C6_witness :
    EntityManager.is_valid ⟨[], fun _ => 0, 1, 1⟩ 5 = true ∧
    ((EntityManager.destroy_entity ⟨[], fun _ => 0, 1, 1⟩ 5).create_entity).1 = 5 :=
  ⟨by decide, claim_C6_thm _ 5 (by decide)⟩

/-- Claim C9, counterexample: calling destroy_entity on an entity that is not live
is a no-op, so after the one-call sequence [destroy 1] from the initial manager the
living count is 0 while creates minus destroys is -1. -/
theorem claim_C9_counterexample :
    ((EntityManager.init.runOps [EOp.destroy 1]).living_entity_count : Int) ≠
      (countCreates [EOp.destroy 1] : Int) - (countDestroys [EOp.destroy 1] : Int) := by
  have h : EntityManager.init.destroy_entity 1 = EntityManager.init := by
    unfold EntityManager.destroy_entity
    rw [is_valid_init]
    simp
  have h2 : EntityManager.init.runOps [EOp.destroy 1] = EntityManager.init := by
    simp [EntityManager.runOps, EntityManager.applyOp, h]
  rw [h2]
  show ((0 : Nat) : Int) ≠ ((0 : Nat) : Int) - ((1 : Nat) : Int)
  decide

theorem runCounting_living {m : EntityManager} (ops : List EOp) (hm : EMInv m) :
    ((m.runCounting ops).1.living_entity_count : Int) =
      (m.living_entity_count : Int) + ((m.runCounting ops).2.1 : Int) -
        ((m.runCounting ops).2.2 : Int) := by
  induction ops generalizing m with
  | nil => simp [EntityManager.runCounting]
  | cons op rest ih =>
      cases op with
      | create =>
          cases hav : m.available_entities with
          | nil =>
              have hcr : m.create_entity = (NULL_ENTITY, m) := by
                simp [EntityManager.create_entity, hav]
              simp only [EntityManager.runCounting, hcr, if_pos rfl]
              exact ih hm
          | cons e rest2 =>
              have hne : e ≠ NULL_ENTITY := by
                have := (hm.2.1 e (by rw [hav]; exact List.mem_cons_self _ _)).1
                simp only [NULL_ENTITY_eq]
                omega
              have hinv2 : EMInv (m.create_entity).2 := emInv_create hm
              rw [EntityManager.create_entity, hav] at hinv2
              simp only [EntityManager.runCounting, EntityManager.create_entity, hav,
                if_neg hne]
              rw [ih hinv2]
              push_cast
              ring
      | destroy e =>
          by_cases hv : m.is_valid e = true
          · have hliv := living_pos_of_valid hm hv
            have hinv2 := emInv_destroy e hm
            simp only [EntityManager.runCounting, hv, if_true]
            rw [ih hinv2]
            simp only [EntityManager.destroy_entity, hv, if_true]
            push_cast
            omega
          · rw [Bool.not_eq_true] at hv
            have hde : m.destroy_entity e = m := by
              simp [EntityManager.destroy_entity, hv]
            simp only [EntityManager.runCounting, hv, hde, Bool.false_eq_true, if_false]
            exact ih hm

/-- Claim C9, amended: for any call sequence from the initial manager, the living
entity count equals the number of effective creates (those returning a non-null
entity) minus the number of effective destroys (those whose argument was live at
the call). -/
theorem claim_C9_amended (ops : List EOp) :
    ((EntityManager.init.runCounting ops).1.living_entity_count : Int) =
      ((EntityManager.init.runCounting ops).2.1 : Int) -
        ((EntityManager.init.runCounting ops).2.2 : Int) := by
  have h := runCounting_living ops emInv_init
  simpa [EntityManager.init] using h

theorem createN_spec {m : EntityManager} (n : Nat) (hn : n ≤ m.available_entities.length) :
    (createN m n).available_entities = m.available_entities.drop n ∧
    (createN m n).living_entity_count = m.living_entity_count + n := by
  induction n with
  | zero => simp [createN]
  | succ k ih =>
      obtain ⟨h1, h2⟩ := ih (by omega)
      have hne : m.available_entities.drop k ≠ [] := by
        intro hc
        have hlen := congrArg List.length hc
        simp only [List.length_drop, List.length_nil] at hlen
        omega
      cases hd : m.available_entities.drop k with
      | nil => exact absurd hd hne
      | cons e rest =>
          have htl : m.available_entities.drop (k + 1) = rest := by
            rw [← List.tail_drop, hd]
            rfl
          constructor
          · simp only [createN, EntityManager.create_entity, h1, hd, htl]
          · simp only [createN, EntityManager.create_entity, h1, hd, h2]
            omega

/-- Claim C5, counterexample: after MAX_ENTITIES - 1 = 9999 successful creates the
manager holds 9999 live entities, which is fewer than MAX_ENTITIES, yet the next
create_entity returns the null entity: capacity is exhausted at MAX_ENTITIES - 1
live entities, because identifier 0 is reserved for the null entity. -/
theorem claim_C5_counterexample :
    (createN EntityManager.init (MAX_ENTITIES - 1)).living_entity_count < MAX_ENTITIES ∧
    ((createN EntityManager.init (MAX_ENTITIES - 1)).create_entity).1 = NULL_ENTITY := by
  have hlen : EntityManager.init.available_entities.length = MAX_ENTITIES - 1 := by
    simp [EntityManager.init, countdown_length]
  obtain ⟨h1, h2⟩ := createN_spec (m := EntityManager.init) (MAX_ENTITIES - 1)
    (le_of_eq hlen.symm)
  have hnil : (createN EntityManager.init (MAX_ENTITIES - 1)).available_entities = [] := by
    rw [h1, ← hlen, List.drop_length]
  constructor
  · rw [h2]
    show EntityManager.init.living_entity_count + (MAX_ENTITIES - 1) < MAX_ENTITIES
    simp only [EntityManager.init, MAX_ENTITIES_eq]
    omega
  · rw [create_entity_nil hnil]

/-- Claim C5, amended: create_entity returns a non-null identifier with its
signature initialized to empty, incrementing the living count, whenever fewer than
MAX_ENTITIES - 1 entities are live, and fails, returning the null entity, once
MAX_ENTITIES - 1 live entities exist (identifier 0 is reserved for the null
entity, so only MAX_ENTITIES - 1 identifiers are available). -/
theorem claim_C5_amended (m : EntityManager) (hm : EMReach m) :
    (m.living_entity_count < MAX_ENTITIES - 1 →
      (m.create_entity).1 ≠ NULL_ENTITY ∧
      (m.create_entity).2.signatures (m.create_entity).1 = 0 ∧
      (m.create_entity).2.living_entity_count = m.living_entity_count + 1) ∧
    (m.living_entity_count = MAX_ENTITIES - 1 → (m.create_entity).1 = NULL_ENTITY) := by
  obtain ⟨hn, hr, hl⟩ := emReach_inv hm
  constructor
  · intro hlt
    have hpos : m.available_entities.length ≠ 0 := by omega
    cases hav : m.available_entities with
    | nil => rw [hav] at hpos; simp at hpos
    | cons e rest =>
        have hne : e ≠ NULL_ENTITY := by
          have := (hr e (by rw [hav]; exact List.mem_cons_self _ _)).1
          simp only [NULL_ENTITY_eq]
          omega
        refine ⟨?_, ?_, ?_⟩ <;> simp [EntityManager.create_entity, hav, hne]
  · intro heq
    have hzero : m.available_entities.length = 0 := by omega
    have hnil : m.available_entities = [] := List.length_eq_zero.1 hzero
    simp [EntityManager.create_entity, hnil]

/-- Witness for the amended claim C5 at the initial manager. -/
theorem claim_C5_witness :
    EntityManager.init.living_entity_count < MAX_ENTITIES - 1 ∧
    (EntityManager.init.create_entity).1 ≠ NULL_ENTITY :=
  ⟨by decide, ((claim_C5_amended _ EMReach.init).1 (by decide)).1⟩

theorem lookup_append {A : Type} (l r : List (Nat × A)) (tn : Nat) :
    (l ++ r).lookup tn = (l.lookup tn).or (r.lookup tn) := by
  induction l with
  | nil => rfl
  | cons p rest ih =>
      obtain ⟨k, v⟩ := p
      cases hbeq : tn == k
      · simpa [List.lookup_cons, hbeq] using ih
      · simp [List.lookup_cons, hbeq, Option.or]

theorem lookup_map_keyed {A B : Type} (l : List (Nat × A)) (f : Nat → A → B) (tn : Nat) :
    (l.map fun p => (p.1, f p.1 p.2)).lookup tn = (l.lookup tn).map (f tn) := by
  induction l with
  | nil => rfl
  | cons p rest ih =>
      obtain ⟨k, v⟩ := p
      cases hbeq : tn == k
      · simpa [List.lookup_cons, hbeq] using ih
      · have he : tn = k := eq_of_beq hbeq
        subst he
        simp [List.lookup_cons, hbeq]

theorem lookup_setAssoc_self {A : Type} (l : List (Nat × A)) (tn : Nat) (a : A) :
    (setAssoc l tn a).lookup tn = some a := by
  induction l with
  | nil => simp [setAssoc, List.lookup_cons]
  | cons p rest ih =>
      obtain ⟨k, v⟩ := p
      by_cases h : k = tn
      · subst h
        simp [setAssoc, List.lookup_cons]
      · have hbeq : (tn == k) = false := by simp [Ne.symm h]
        simp [setAssoc, h, List.lookup_cons, hbeq, ih]

theorem lookup_setAssoc_other {A : Type} (l : List (Nat × A)) (tn tn2 : Nat) (a : A)
    (h2 : tn2 ≠ tn) : (setAssoc l tn a).lookup tn2 = l.lookup tn2 := by
  induction l with
  | nil =>
      have hbeq : (tn2 == tn) = false := by simp [h2]
      simp [setAssoc, List.lookup_cons, hbeq]
  | cons p rest ih =>
      obtain ⟨k, v⟩ := p
      by_cases h : k = tn
      · subst h
        have hbeq : (tn2 == k) = false := by simp [h2]
        simp [setAssoc, List.lookup_cons, hbeq]
      · cases hbeq : tn2 == k
        · simp [setAssoc, h, List.lookup_cons, hbeq, ih]
        · simp [setAssoc, h, List.lookup_cons, hbeq]

theorem register_of_isSome {V : Type} [Inhabited V] {cm : ComponentManager V} {tn : Nat}
    (h : (cm.component_types.lookup tn).isSome = true) :
    cm.register_component tn = cm := by
  simp [ComponentManager.register_component, h]

theorem register_lookup_isSome {V : Type} [Inhabited V] (cm : ComponentManager V) (tn : Nat) :
    ((cm.register_component tn).component_types.lookup tn).isSome = true := by
  by_cases h : (cm.component_types.lookup tn).isSome = true
  · rw [register_of_isSome h]
    exact h
  · have hn : cm.component_types.lookup tn = none := by
      cases ho : cm.component_types.lookup tn
      · rfl
      · rw [ho] at h
        simp at h
    rw [ComponentManager.register_component, if_neg h]
    simp only [lookup_append, hn]
    simp [List.lookup_cons, Option.or]

/-- Claim C10: registering a component kind is idempotent: a register_component
call on an already-registered kind returns the manager unchanged, so the assigned
kind index, all stored component data and the next-kind counter are untouched; in
particular a second call right after the first is the identity. -/
theorem claim_C10_thm {V : Type} [Inhabited V] (cm : ComponentManager V) (tn : Nat) :
    ((cm.component_types.lookup tn).isSome = true → cm.register_component tn = cm) ∧
    (cm.register_component tn).register_component tn = cm.register_component tn :=
  ⟨fun h => register_of_isSome h, register_of_isSome (register_lookup_isSome cm tn)⟩

/-- Witness for claim C10 on a concrete manager. -/
theorem claim_C10_witness :
    (((ComponentManager.init (V := Nat)).register_component 7).component_types.lookup 7).isSome
        = true ∧
    ((ComponentManager.init (V := Nat)).register_component 7).register_component 7 =
      (ComponentManager.init (V := Nat)).register_component 7 :=
  ⟨rfl, (claim_C10_thm ((ComponentManager.init (V := Nat)).register_component 7) 7).1 rfl⟩

/-- Claim C8: set_signature faults with the unregistered-system error exactly when
the system kind was not registered first, leaving the registry unchanged, and
binds the signature when the system is registered. -/
theorem claim_C8_thm (sm : SystemManager) (tn sig : Nat) :
    (sm.systems.lookup tn = none →
      sm.set_signature tn sig =
        Except.error "System not registered before setting signature" ∧
      sm.set_signature_run tn sig = sm) ∧
    (∀ st, sm.systems.lookup tn = some st →
      sm.set_signature tn sig =
        Except.ok { sm with signatures := setAssoc sm.signatures tn sig } ∧
      (sm.set_signature_run tn sig).systems = sm.systems ∧
      (sm.set_signature_run tn sig).signatures.lookup tn = some sig ∧
      ∀ tn2, tn2 ≠ tn →
        (sm.set_signature_run tn sig).signatures.lookup tn2 = sm.signatures.lookup tn2) := by
  constructor
  · intro h
    have hs : (sm.systems.lookup tn).isSome = false := by rw [h]; rfl
    constructor
    · simp [SystemManager.set_signature, hs]
    · simp [SystemManager.set_signature_run, SystemManager.set_signature, hs]
  · intro st h
    have hs : (sm.systems.lookup tn).isSome = true := by rw [h]; rfl
    refine ⟨?_, ?_, ?_, ?_⟩
    · simp [SystemManager.set_signature, hs]
    · simp [SystemManager.set_signature_run, SystemManager.set_signature, hs]
    · simp [SystemManager.set_signature_run, SystemManager.set_signature, hs,
        lookup_setAssoc_self]
    · intro tn2 h2
      simp [SystemManager.set_signature_run, SystemManager.set_signature, hs,
        lookup_setAssoc_other _ _ _ _ h2]

/-- Witness for claim C8: setting a signature on an unregistered kind faults, and
succeeds after registration. -/
theorem claim_C8_witness :
    SystemManager.init.set_signature 7 3 =
      Except.error "System not registered before setting signature" ∧
    (SystemManager.init.register_system 7).set_signature 7 3 =
      Except.ok { SystemManager.init.register_system 7 with
                    signatures := setAssoc (SystemManager.init.register_system 7).signatures 7 3 } :=
  ⟨((claim_C8_thm SystemManager.init 7 3).1 rfl).1,
    ((claim_C8_thm (SystemManager.init.register_system 7) 7 3).2 SystemState.initial rfl).1⟩

/-- Claim C3: after inserting components for distinct entities a, b, c in that
order (dense slots 0, 1, 2), removing the component of a leaves size 2, moves the
former last entity c into slot 0, and get_data for b and c still returns the exact
payloads they held before the removal. -/
theorem claim_C3_thm {V : Type} [Inhabited V] (a b c : Nat) (va vb vc : V)
    (hab : a ≠ b) (hac : a ≠ c) (hbc : b ≠ c) :
    (((ComponentArray.empty.insert_data a va).insert_data b vb).insert_data c
          vc).get_data b = Except.ok vb ∧
    (((ComponentArray.empty.insert_data a va).insert_data b vb).insert_data c
          vc).get_data c = Except.ok vc ∧
    ((((ComponentArray.empty.insert_data a va).insert_data b vb).insert_data c
          vc).remove_data a).size = 2 ∧
    ((((ComponentArray.empty.insert_data a va).insert_data b vb).insert_data c
          vc).remove_data a).index_to_entity_map 0 = some c ∧
    ((((ComponentArray.empty.insert_data a va).insert_data b vb).insert_data c
          vc).remove_data a).get_data b = Except.ok vb ∧
    ((((ComponentArray.empty.insert_data a va).insert_data b vb).insert_data c
          vc).remove_data a).get_data c = Except.ok vc := by
  have hba : b ≠ a := Ne.symm hab
  have hca : c ≠ a := Ne.symm hac
  have hcb : c ≠ b := Ne.symm hbc
  refine ⟨?_, ?_, ?_, ?_, ?_, ?_⟩ <;>
    simp [ComponentArray.insert_data, ComponentArray.empty, ComponentArray.remove_data,
      ComponentArray.get_data, hab, hac, hbc, hba, hca, hcb]

/-- Witness for claim C3 at concrete entities and payloads. -/
theorem claim_C3_witness :
    ((((ComponentArray.empty (V := Nat)).insert_data 1 10).insert_data 2 20).insert_data 3
          30).get_data 2 = Except.ok 20 ∧
    ((((ComponentArray.empty (V := Nat)).insert_data 1 10).insert_data 2 20).insert_data 3
          30).get_data 3 = Except.ok 30 ∧
    (((((ComponentArray.empty (V := Nat)).insert_data 1 10).insert_data 2 20).insert_data 3
          30).remove_data 1).size = 2 ∧
    (((((ComponentArray.empty (V := Nat)).insert_data 1 10).insert_data 2 20).insert_data 3
          30).remove_data 1).index_to_entity_map 0 = some 3 ∧
    (((((ComponentArray.empty (V := Nat)).insert_data 1 10).insert_data 2 20).insert_data 3
          30).remove_data 1).get_data 2 = Except.ok 20 ∧
    (((((ComponentArray.empty (V := Nat)).insert_data 1 10).insert_data 2 20).insert_data 3
          30).remove_data 1).get_data 3 = Except.ok 30 :=
  claim_C3_thm 1 2 3 10 20 30 (by decide) (by decide) (by decide)

/-- Claim C7: get_data faults with the missing-component error exactly when the
entity does not hold the component, returns the stored payload at the mapped dense
slot otherwise, and entity_destroyed never faults and is the identity when the
entity never held the component (has_data reports the same absence without
faulting). -/
theorem claim_C7_thm {V : Type} (a : ComponentArray V) (e : Nat) :
    (a.has_data e = false →
      a.get_data e = Except.error "Entity does not have this component" ∧
      a.entity_destroyed e = a) ∧
    (a.has_data e = true →
      ∃ i, a.entity_to_index_map e = some i ∧
        a.get_data e = Except.ok (a.component_array i)) := by
  constructor
  · intro h
    have hnone : a.entity_to_index_map e = none := by
      cases ho : a.entity_to_index_map e
      · rfl
      · rw [ComponentArray.has_data, ho] at h
        simp at h
    exact ⟨by simp [ComponentArray.get_data, hnone],
      by simp [ComponentArray.entity_destroyed, h]⟩
  · intro h
    rw [ComponentArray.has_data] at h
    obtain ⟨i, hi⟩ := Option.isSome_iff_exists.1 h
    exact ⟨i, hi, by simp [ComponentArray.get_data, hi]⟩

/-- Witness for claim C7: an absent entity faults on get_data but not on
entity_destroyed, and a present entity resolves to its stored payload. -/
theorem claim_C7_witness :
    ((ComponentArray.empty (V := Nat)).get_data 9 =
        Except.error "Entity does not have this component" ∧
      (ComponentArray.empty (V := Nat)).entity_destroyed 9 = ComponentArray.empty) ∧
    ∃ i, ((ComponentArray.empty (V := Nat)).insert_data 4 7).entity_to_index_map 4 = some i ∧
      ((ComponentArray.empty (V := Nat)).insert_data 4 7).get_data 4 =
        Except.ok (((ComponentArray.empty (V := Nat)).insert_data 4 7).component_array i) :=
  ⟨(claim_C7_thm ComponentArray.empty 9).1 rfl,
    (claim_C7_thm ((ComponentArray.empty (V := Nat)).insert_data 4 7) 4).2 rfl⟩

theorem zero_land (n : Nat) : 0 &&& n = 0 :=
  Nat.eq_of_testBit_eq (by simp [Nat.testBit_land, Nat.zero_testBit])

theorem bitOf_eq {k : Nat} (hk : k < 32) : bitOf k = 2 ^ k := by
  unfold bitOf UINT32_LIM
  rw [Nat.shiftLeft_eq, one_mul]
  exact Nat.mod_eq_of_lt (Nat.pow_lt_pow_right (by norm_num) hk)

theorem testBit_bitOf {k : Nat} (hk : k < 32) (j : Nat) :
    (bitOf k).testBit j = decide (j = k) := by
  rw [bitOf_eq hk]
  by_cases h : k = j
  · subst h
    simp [Nat.testBit_two_pow_self]
  · simp [Nat.testBit_two_pow_of_ne h, Ne.symm h]

theorem bit_or_ne_zero {a b : Nat} (ha : a < 32) : bitOf a ||| bitOf b ≠ 0 := by
  intro h
  have h2 := congrArg (Nat.testBit · a) h
  simp [Nat.testBit_lor, testBit_bitOf ha, Nat.zero_testBit] at h2

theorem testBit_or_bitOf {k : Nat} (hk : k < 32) (s j : Nat) :
    (s ||| bitOf k).testBit j = (s.testBit j || decide (j = k)) := by
  rw [Nat.testBit_lor, testBit_bitOf hk]

theorem testBit_clearMask {k : Nat} (hk : k < 32) (j : Nat) :
    (clearMask k).testBit j = (decide (j < 32) && decide (j ≠ k)) := by
  unfold clearMask UINT32_LIM
  rw [Nat.testBit_xor, Nat.testBit_two_pow_sub_one, testBit_bitOf hk]
  by_cases h1 : j < 32
  · by_cases h2 : j = k <;> simp [h1, h2, hk]
  · have h2 : j ≠ k := by omega
    simp [h1, h2]

theorem testBit_and_clearMask {k : Nat} (hk : k < 32) (s j : Nat) :
    (s &&& clearMask k).testBit j = (s.testBit j && (decide (j < 32) && decide (j ≠ k))) := by
  rw [Nat.testBit_land, testBit_clearMask hk]

theorem land_or_two_eq_iff {s a b : Nat} (ha : a < 32) (hb : b < 32) :
    s &&& (bitOf a ||| bitOf b) = (bitOf a ||| bitOf b) ↔
      s.testBit a = true ∧ s.testBit b = true := by
  constructor
  · intro h
    constructor
    · have h2 := congrArg (Nat.testBit · a) h
      simpa [Nat.testBit_land, Nat.testBit_lor, testBit_bitOf ha, testBit_bitOf hb] using h2
    · have h2 := congrArg (Nat.testBit · b) h
      simpa [Nat.testBit_land, Nat.testBit_lor, testBit_bitOf ha, testBit_bitOf hb] using h2
  · rintro ⟨h1, h2⟩
    apply Nat.eq_of_testBit_eq
    intro j
    rw [Nat.testBit_land, Nat.testBit_lor, testBit_bitOf ha, testBit_bitOf hb]
    by_cases hja : j = a
    · subst hja
      simp [h1]
    · by_cases hjb : j = b
      · subst hjb
        simp [h2]
      · simp [hja, hjb]

theorem contains_append_self (l : List Nat) (e : Nat) : (l ++ [e]).contains e = true := by
  simp [List.elem_iff]

theorem contains_append_other (l : List Nat) {x e : Nat} (h : x ≠ e) :
    (l ++ [e]).contains x = l.contains x := by
  cases hc : l.contains x
  · rw [Bool.eq_false_iff]
    intro hC
    have hm := List.elem_iff.1 hC
    rcases List.mem_append.1 hm with hm2 | hm2
    · have h2 : l.contains x = true := List.elem_iff.2 hm2
      rw [hc] at h2
      exact absurd h2 (by simp)
    · simp at hm2
      exact h hm2
  · exact List.elem_iff.2 (List.mem_append.2 (Or.inl (List.elem_iff.1 hc)))

theorem contains_filter_self (l : List Nat) (e : Nat) :
    (l.filter fun x => x != e).contains e = false := by
  rw [Bool.eq_false_iff]
  intro hc
  have h2 := (List.mem_filter.1 (List.elem_iff.1 hc)).2
  simp at h2

theorem contains_filter_other (l : List Nat) {x e : Nat} (h : x ≠ e) :
    (l.filter fun y => y != e).contains x = l.contains x := by
  cases hc : l.contains x
  · rw [Bool.eq_false_iff]
    intro hC
    have hm := (List.mem_filter.1 (List.elem_iff.1 hC)).1
    have h2 : l.contains x = true := List.elem_iff.2 hm
    rw [hc] at h2
    exact absurd h2 (by simp)
  · exact List.elem_iff.2 (List.mem_filter.2 ⟨List.elem_iff.1 hc, by simp [h]⟩)

theorem lookup_mem {A : Type} {l : List (Nat × A)} {tn : Nat} {a : A}
    (h : l.lookup tn = some a) : (tn, a) ∈ l := by
  induction l with
  | nil => simp [List.lookup] at h
  | cons p rest ih =>
      obtain ⟨k, v⟩ := p
      cases hbeq : tn == k
      · simp only [List.lookup_cons, hbeq] at h
        exact List.mem_cons_of_mem _ (ih h)
      · have he : tn = k := eq_of_beq hbeq
        subst he
        simp only [List.lookup_cons, hbeq] at h
        simp only [Option.some.injEq] at h
        subst h
        exact List.mem_cons_self _ _

theorem lookup_none_not_mem {A : Type} {l : List (Nat × A)} {tn : Nat}
    (h : l.lookup tn = none) : tn ∉ l.map Prod.fst := by
  induction l with
  | nil => simp
  | cons p rest ih =>
      obtain ⟨k, v⟩ := p
      cases hbeq : tn == k
      · simp only [List.lookup_cons, hbeq] at h
        have hne : tn ≠ k := by
          intro hEq
          subst hEq
          simp at hbeq
        simp [hne, ih h]
      · have he : tn = k := eq_of_beq hbeq
        subst he
        simp only [List.lookup_cons, hbeq] at h
        exact absurd h (by simp)

theorem map_fst_keyed {A B : Type} (l : List (Nat × A)) (f : Nat → A → B) :
    (l.map fun p => (p.1, f p.1 p.2)).map Prod.fst = l.map Prod.fst := by
  induction l with
  | nil => rfl
  | cons p rest ih => simp [ih]

theorem lookup_isSome_congr {A B : Type} {l1 : List (Nat × A)} {l2 : List (Nat × B)}
    (h : l1.map Prod.fst = l2.map Prod.fst) (tn : Nat) :
    (l1.lookup tn).isSome = (l2.lookup tn).isSome := by
  induction l1 generalizing l2 with
  | nil =>
      cases l2
      · rfl
      · simp at h
  | cons p rest ih =>
      cases l2 with
      | nil => simp at h
      | cons q rest2 =>
          obtain ⟨k, v⟩ := p
          obtain ⟨k2, v2⟩ := q
          simp only [List.map_cons, List.cons.injEq] at h
          obtain ⟨hk, hr⟩ := h
          subst hk
          cases hbeq : tn == k
          · simp only [List.lookup_cons, hbeq]
            exact ih hr
          · simp only [List.lookup_cons, hbeq]
            rfl

theorem insert_data_of_none {V : Type} {a : ComponentArray V} {e : Nat} (v : V)
    (ho : a.entity_to_index_map e = none) :
    a.insert_data e v =
      { component_array := fun j => if j = a.size then v else a.component_array j
        entity_to_index_map := fun x => if x = e then some a.size else a.entity_to_index_map x
        index_to_entity_map := fun j => if j = a.size then some e else a.index_to_entity_map j
        size := a.size + 1 } := by
  unfold ComponentArray.insert_data
  rw [ho]

theorem insert_data_of_some {V : Type} {a : ComponentArray V} {e i : Nat} (v : V)
    (ho : a.entity_to_index_map e = some i) :
    a.insert_data e v =
      { a with component_array := fun j => if j = i then v else a.component_array j } := by
  unfold ComponentArray.insert_data
  rw [ho]

theorem remove_data_of_none {V : Type} {a : ComponentArray V} {e : Nat}
    (ho : a.entity_to_index_map e = none) : a.remove_data e = a := by
  unfold ComponentArray.remove_data
  rw [ho]

theorem remove_data_of_some {V : Type} {a : ComponentArray V} {e i : Nat}
    (ho : a.entity_to_index_map e = some i) :
    a.remove_data e =
      { component_array := fun j =>
          if j = i then a.component_array (a.size - 1) else a.component_array j
        entity_to_index_map := fun x =>
          if x = e then none
          else if x = (a.index_to_entity_map (a.size - 1)).getD NULL_ENTITY then some i
          else a.entity_to_index_map x
        index_to_entity_map := fun j =>
          if j = a.size - 1 then none
          else if j = i then some ((a.index_to_entity_map (a.size - 1)).getD NULL_ENTITY)
          else a.index_to_entity_map j
        size := a.size - 1 } := by
  unfold ComponentArray.remove_data
  rw [ho]

theorem CAWF.e2i_lt {V : Type} {a : ComponentArray V} (wf : CAWF a) {e i : Nat}
    (h : a.entity_to_index_map e = some i) : i < a.size :=
  (wf.dom i).1 (by rw [wf.e2i_i2e e i h]; rfl)

theorem CAWF_empty {V : Type} [Inhabited V] : CAWF (ComponentArray.empty (V := V)) := by
  constructor
  · intro e i h
    exact absurd h (by simp [ComponentArray.empty])
  · intro i e h
    exact absurd h (by simp [ComponentArray.empty])
  · intro i
    simp [ComponentArray.empty]

theorem CAWF_insert {V : Type} {a : ComponentArray V} (wf : CAWF a) (e : Nat) (v : V) :
    CAWF (a.insert_data e v) := by
  cases ho : a.entity_to_index_map e with
  | some i =>
      rw [insert_data_of_some v ho]
      exact ⟨wf.e2i_i2e, wf.i2e_e2i, wf.dom⟩
  | none =>
      rw [insert_data_of_none v ho]
      constructor
      · intro x j hx
        dsimp only at hx ⊢
        by_cases hxe : x = e
        · rw [if_pos hxe] at hx
          have hj : j = a.size := (Option.some.inj hx).symm
          subst hj
          rw [if_pos rfl, hxe]
        · rw [if_neg hxe] at hx
          have hj : j < a.size := CAWF.e2i_lt wf hx
          rw [if_neg (by omega)]
          exact wf.e2i_i2e x j hx
      · intro j x hj
        dsimp only at hj ⊢
        by_cases hje : j = a.size
        · rw [if_pos hje] at hj
          have hx : x = e := (Option.some.inj hj).symm
          subst hx
          rw [if_pos rfl, hje]
        · rw [if_neg hje] at hj
          have h2 : a.entity_to_index_map x = some j := wf.i2e_e2i j x hj
          have hxe : x ≠ e := by
            intro hEq
            rw [hEq, ho] at h2
            exact absurd h2 (by simp)
          rw [if_neg hxe]
          exact h2
      · intro j
        dsimp only
        by_cases hje : j = a.size
        · rw [if_pos hje]
          simp
          omega
        · rw [if_neg hje]
          have hd := wf.dom j
          constructor
          · intro hs
            have := hd.1 hs
            omega
          · intro hlt
            exact hd.2 (by omega)

theorem CAWF_remove {V : Type} {a : ComponentArray V} (wf : CAWF a) (e : Nat) :
    CAWF (a.remove_data e) := by
  cases ho : a.entity_to_index_map e with
  | none =>
      rw [remove_data_of_none ho]
      exact wf
  | some i =>
      have hi : i < a.size := CAWF.e2i_lt wf ho
      obtain ⟨el, hel⟩ := Option.isSome_iff_exists.1 ((wf.dom (a.size - 1)).2 (by omega))
      have hele2i : a.entity_to_index_map el = some (a.size - 1) := wf.i2e_e2i _ _ hel
      rw [remove_data_of_some ho]
      simp only [hel, Option.getD_some]
      constructor
      · intro x j hx
        dsimp only at hx ⊢
        by_cases hxe : x = e
        · rw [if_pos hxe] at hx
          exact absurd hx (by simp)
        · rw [if_neg hxe] at hx
          by_cases hxel : x = el
          · rw [if_pos hxel] at hx
            have hj : j = i := (Option.some.inj hx).symm
            subst hj
            have hine : j ≠ a.size - 1 := by
              intro hEq
              have h2 : a.index_to_entity_map j = some e := wf.e2i_i2e e j ho
              rw [hEq, hel] at h2
              have : el = e := Option.some.inj h2
              exact hxe (hxel.trans this)
            rw [if_neg hine, if_pos rfl, hxel]
          · rw [if_neg hxel] at hx
            have hj2 : a.index_to_entity_map j = some x := wf.e2i_i2e x j hx
            have hjne_last : j ≠ a.size - 1 := by
              intro hEq
              rw [hEq, hel] at hj2
              exact hxel (Option.some.inj hj2).symm
            have hjne_i : j ≠ i := by
              intro hEq
              rw [hEq] at hj2
              have h3 : a.index_to_entity_map i = some e := wf.e2i_i2e e i ho
              rw [h3] at hj2
              exact hxe (Option.some.inj hj2).symm
            rw [if_neg hjne_last, if_neg hjne_i]
            exact hj2
      · intro j x hj
        dsimp only at hj ⊢
        by_cases hjl : j = a.size - 1
        · rw [if_pos hjl] at hj
          exact absurd hj (by simp)
        · rw [if_neg hjl] at hj
          by_cases hji : j = i
          · rw [if_pos hji] at hj
            have hx : x = el := (Option.some.inj hj).symm
            have helne : el ≠ e := by
              intro hEq
              rw [hEq, ho] at hele2i
              have : i = a.size - 1 := Option.some.inj hele2i
              exact hjl (hji.trans this)
            rw [hx, if_neg helne, if_pos rfl, hji]
          · rw [if_neg hji] at hj
            have hx2 : a.entity_to_index_map x = some j := wf.i2e_e2i j x hj
            have hxne : x ≠ e := by
              intro hEq
              rw [hEq, ho] at hx2
              exact hji (Option.some.inj hx2).symm
            have hxnel : x ≠ el := by
              intro hEq
              rw [hEq, hele2i] at hx2
              exact hjl (Option.some.inj hx2).symm
            rw [if_neg hxne, if_neg hxnel]
            exact hx2
      · intro j
        dsimp only
        by_cases hjl : j = a.size - 1
        · rw [if_pos hjl]
          simp
          omega
        · rw [if_neg hjl]
          by_cases hji : j = i
          · rw [if_pos hji]
            simp
            omega
          · rw [if_neg hji]
            have hd := wf.dom j
            constructor
            · intro hs
              have := hd.1 hs
              omega
            · intro hlt
              exact hd.2 (by omega)

theorem has_data_insert {V : Type} (a : ComponentArray V) (e x : Nat) (v : V) :
    (a.insert_data e v).has_data x = (decide (x = e) || a.has_data x) := by
  cases ho : a.entity_to_index_map e with
  | some i =>
      rw [insert_data_of_some v ho]
      by_cases hx : x = e
      · subst hx
        simp [ComponentArray.has_data, ho]
      · simp [ComponentArray.has_data, hx]
  | none =>
      rw [insert_data_of_none v ho]
      by_cases hx : x = e
      · subst hx
        simp [ComponentArray.has_data]
      · simp [ComponentArray.has_data, hx]

theorem has_data_remove_self {V : Type} (a : ComponentArray V) (e : Nat) :
    (a.remove_data e).has_data e = false := by
  cases ho : a.entity_to_index_map e with
  | none =>
      rw [remove_data_of_none ho, ComponentArray.has_data, ho]
      rfl
  | some i =>
      rw [remove_data_of_some ho]
      simp [ComponentArray.has_data]

theorem has_data_remove_other {V : Type} {a : ComponentArray V} (wf : CAWF a) {x e : Nat}
    (hx : x ≠ e) : (a.remove_data e).has_data x = a.has_data x := by
  cases ho : a.entity_to_index_map e with
  | none => rw [remove_data_of_none ho]
  | some i =>
      have hi : i < a.size := CAWF.e2i_lt wf ho
      obtain ⟨el, hel⟩ := Option.isSome_iff_exists.1 ((wf.dom (a.size - 1)).2 (by omega))
      have hele2i : a.entity_to_index_map el = some (a.size - 1) := wf.i2e_e2i _ _ hel
      rw [remove_data_of_some ho]
      simp only [hel, Option.getD_some]
      by_cases hxel : x = el
      · subst hxel
        simp [ComponentArray.has_data, hx, hele2i]
      · simp [ComponentArray.has_data, hx, hxel]

theorem has_data_entity_destroyed_self {V : Type} (a : ComponentArray V) (e : Nat) :
    (a.entity_destroyed e).has_data e = false := by
  unfold ComponentArray.entity_destroyed
  by_cases h : a.has_data e = true
  · simp [h, has_data_remove_self]
  · rw [Bool.not_eq_true] at h
    simp [h]

theorem has_data_entity_destroyed_other {V : Type} {a : ComponentArray V} (wf : CAWF a)
    {x e : Nat} (hx : x ≠ e) : (a.entity_destroyed e).has_data x = a.has_data x := by
  unfold ComponentArray.entity_destroyed
  by_cases h : a.has_data e = true
  · simp [h, has_data_remove_other wf hx]
  · rw [Bool.not_eq_true] at h
    simp [h]

theorem CAWF_entity_destroyed {V : Type} {a : ComponentArray V} (wf : CAWF a) (e : Nat) :
    CAWF (a.entity_destroyed e) := by
  unfold ComponentArray.entity_destroyed
  by_cases h : a.has_data e = true
  · simp only [h, if_true]
    exact CAWF_remove wf e
  · rw [Bool.not_eq_true] at h
    simp only [h, Bool.false_eq_true, if_false]
    exact wf

theorem is_valid_of_avail_eq {m m2 : EntityManager}
    (h : m2.available_entities = m.available_entities) (e : Nat) :
    m2.is_valid e = m.is_valid e := by
  unfold EntityManager.is_valid
  rw [h]

theorem create_entity_cons {m : EntityManager} {e0 : Nat} {rest : List Nat}
    (h : m.available_entities = e0 :: rest) :
    m.create_entity = (e0, { m with
      available_entities := rest
      living_entity_count := m.living_entity_count + 1
      entities_created := m.entities_created + 1
      signatures := fun x => if x = e0 then 0 else m.signatures x }) := by
  unfold EntityManager.create_entity
  rw [h]

theorem get_signature_create (m : EntityManager) (x : Nat) :
    (m.create_entity).2.get_signature x = m.get_signature x := by
  cases hav : m.available_entities with
  | nil => rw [create_entity_nil hav]
  | cons e0 rest =>
      rw [create_entity_cons hav]
      unfold EntityManager.get_signature EntityManager.is_valid
      rw [hav]
      by_cases hx : x = e0
      · subst hx
        simp [List.elem_iff]
      · simp [hx, List.elem_iff, List.mem_cons]

theorem destroy_entity_invalid {m : EntityManager} {e : Nat} (hv : m.is_valid e = false) :
    m.destroy_entity e = m := by
  simp [EntityManager.destroy_entity, hv]

theorem get_signature_destroy_self {m : EntityManager} {e : Nat} (hv : m.is_valid e = true) :
    (m.destroy_entity e).get_signature e = 0 := by
  simp only [EntityManager.destroy_entity, hv, if_true]
  unfold EntityManager.get_signature EntityManager.is_valid
  simp [List.elem_iff]

theorem get_signature_destroy_other {m : EntityManager} {e x : Nat} (hx : x ≠ e) :
    (m.destroy_entity e).get_signature x = m.get_signature x := by
  by_cases hv : m.is_valid e = true
  · simp only [EntityManager.destroy_entity, hv, if_true]
    unfold EntityManager.get_signature EntityManager.is_valid
    simp [hx, List.elem_iff, List.mem_cons]
  · rw [Bool.not_eq_true] at hv
    rw [destroy_entity_invalid hv]

theorem set_signature_invalid {m : EntityManager} {e : Nat} (hv : m.is_valid e = false)
    (s : Nat) : m.set_signature e s = m := by
  simp [EntityManager.set_signature, hv]

theorem get_signature_set_self {m : EntityManager} {e : Nat} (hv : m.is_valid e = true)
    (s : Nat) : (m.set_signature e s).get_signature e = s := by
  unfold EntityManager.set_signature
  simp only [hv, if_true]
  unfold EntityManager.get_signature
  rw [show ({ m with signatures := fun x => if x = e then s else m.signatures x } :
      EntityManager).is_valid e = m.is_valid e from rfl, hv]
  simp

theorem get_signature_set_other {m : EntityManager} {e x : Nat} (hx : x ≠ e) (s : Nat) :
    (m.set_signature e s).get_signature x = m.get_signature x := by
  unfold EntityManager.set_signature
  by_cases hv : m.is_valid e = true
  · simp only [hv, if_true]
    unfold EntityManager.get_signature
    rw [show ({ m with signatures := fun y => if y = e then s else m.signatures y } :
        EntityManager).is_valid x = m.is_valid x from rfl]
    simp [hx]
  · rw [Bool.not_eq_true] at hv
    simp [hv]

theorem lookup_singleton_ne {A : Type} {tn tn2 : Nat} (h : tn2 ≠ tn) (a : A) :
    ([(tn, a)] : List (Nat × A)).lookup tn2 = none := by
  have hbeq : (tn2 == tn) = false := by simp [h]
  simp [List.lookup_cons, hbeq]

theorem register_lookup_of_none {V : Type} [Inhabited V] {cm : ComponentManager V} {tn : Nat}
    (h : cm.component_types.lookup tn = none) :
    (cm.register_component tn).component_types.lookup tn = some cm.next_component_type := by
  have hb : (cm.component_types.lookup tn).isSome = false := by rw [h]; rfl
  unfold ComponentManager.register_component
  rw [if_neg (by rw [hb]; simp)]
  rw [lookup_append, h]
  simp [List.lookup_cons, Option.or]

theorem register_arrays_lookup_of_none {V : Type} [Inhabited V] {cm : ComponentManager V}
    {tn : Nat} (h : cm.component_types.lookup tn = none)
    (ha : cm.component_arrays.lookup tn = none) :
    (cm.register_component tn).component_arrays.lookup tn = some ComponentArray.empty := by
  have hb : (cm.component_types.lookup tn).isSome = false := by rw [h]; rfl
  unfold ComponentManager.register_component
  rw [if_neg (by rw [hb]; simp)]
  rw [lookup_append, ha]
  simp [List.lookup_cons, Option.or]

theorem register_lookup_other {V : Type} [Inhabited V] (cm : ComponentManager V)
    {tn tn2 : Nat} (h2 : tn2 ≠ tn) :
    (cm.register_component tn).component_types.lookup tn2 = cm.component_types.lookup tn2 ∧
    (cm.register_component tn).component_arrays.lookup tn2 =
      cm.component_arrays.lookup tn2 := by
  unfold ComponentManager.register_component
  by_cases h : (cm.component_types.lookup tn).isSome = true
  · simp [h]
  · rw [if_neg h]
    constructor
    · rw [lookup_append, lookup_singleton_ne h2]
      cases ho : cm.component_types.lookup tn2 <;> simp [Option.or]
    · rw [lookup_append, lookup_singleton_ne h2]
      cases ho : cm.component_arrays.lookup tn2 <;> simp [Option.or]

theorem register_types_of_isSome {V : Type} [Inhabited V] {cm : ComponentManager V} {tn : Nat}
    (h : (cm.component_types.lookup tn).isSome = true) :
    (cm.register_component tn).component_types = cm.component_types := by
  rw [register_of_isSome h]

theorem register_next {V : Type} [Inhabited V] (cm : ComponentManager V) (tn : Nat) :
    (cm.register_component tn).next_component_type = cm.next_component_type ∨
    ((cm.register_component tn).next_component_type = cm.next_component_type + 1 ∧
      cm.component_types.lookup tn = none) := by
  unfold ComponentManager.register_component
  by_cases h : (cm.component_types.lookup tn).isSome = true
  · simp [h]
  · rw [if_neg h]
    right
    constructor
    · rfl
    · cases ho : cm.component_types.lookup tn
      · rfl
      · rw [ho] at h
        exact absurd (by rfl) h

theorem CMWF_register {V : Type} [Inhabited V] {cm : ComponentManager V} (wf : CMWF cm)
    (tn : Nat) : CMWF (cm.register_component tn) := by
  by_cases h : (cm.component_types.lookup tn).isSome = true
  · rw [register_of_isSome h]
    exact wf
  · have hn : cm.component_types.lookup tn = none := by
      cases ho : cm.component_types.lookup tn
      · rfl
      · rw [ho] at h
        exact absurd (by rfl) h
    unfold ComponentManager.register_component
    rw [if_neg h]
    constructor
    · rw [List.map_append, List.nodup_append]
      refine ⟨wf.keys_nodup, by simp, ?_⟩
      intro x hx hx2
      simp at hx2
      subst hx2
      exact lookup_none_not_mem hn hx
    · intro p hp
      dsimp only
      rcases List.mem_append.1 hp with hp | hp
      · have := wf.vals_lt p hp
        omega
      · simp at hp
        subst hp
        simp
    · intro p hp q hq hpq
      rcases List.mem_append.1 hp with hp | hp <;> rcases List.mem_append.1 hq with hq | hq
      · exact wf.vals_inj p hp q hq hpq
      · simp at hq
        subst hq
        dsimp at hpq
        have := wf.vals_lt p hp
        omega
      · simp at hp
        subst hp
        dsimp at hpq
        have := wf.vals_lt q hq
        omega
      · simp at hp hq
        subst hp
        subst hq
        rfl
    · rw [List.map_append, List.map_append, wf.arrays_keys]
      simp
    · intro p hp
      rcases List.mem_append.1 hp with hp | hp
      · exact wf.arrays_wf p hp
      · simp at hp
        subst hp
        exact CAWF_empty

theorem updateArrayAt_lookup {V : Type} (l : List (Nat × ComponentArray V)) (tn t2 : Nat)
    (f : ComponentArray V → ComponentArray V) :
    (updateArrayAt l tn f).lookup t2 =
      (l.lookup t2).map (fun a => if t2 = tn then f a else a) := by
  unfold updateArrayAt
  exact lookup_map_keyed l (fun k a => if k = tn then f a else a) t2

theorem updateArrayAt_keys {V : Type} (l : List (Nat × ComponentArray V)) (tn : Nat)
    (f : ComponentArray V → ComponentArray V) :
    (updateArrayAt l tn f).map Prod.fst = l.map Prod.fst := by
  unfold updateArrayAt
  exact map_fst_keyed l (fun k a => if k = tn then f a else a)

theorem esc_systems_lookup (sm : SystemManager) (e esig tn : Nat) :
    (sm.entity_signature_changed e esig).systems.lookup tn =
      (sm.systems.lookup tn).map (escStep ((sm.signatures.lookup tn).getD 0) e esig) := by
  unfold SystemManager.entity_signature_changed
  exact lookup_map_keyed sm.systems (fun k s => escStep ((sm.signatures.lookup k).getD 0) e esig s) tn

theorem esc_signatures (sm : SystemManager) (e esig : Nat) :
    (sm.entity_signature_changed e esig).signatures = sm.signatures := rfl

theorem destroyed_systems_lookup (sm : SystemManager) (e tn : Nat) :
    (sm.entity_destroyed e).systems.lookup tn =
      (sm.systems.lookup tn).map (destroyStep e) := by
  unfold SystemManager.entity_destroyed
  exact lookup_map_keyed sm.systems (fun _ s => destroyStep e s) tn

theorem destroyed_signatures (sm : SystemManager) (e : Nat) :
    (sm.entity_destroyed e).signatures = sm.signatures := rfl

theorem not_mem_of_contains_false {l : List Nat} {e : Nat} (hc : l.contains e = false) :
    e ∉ l := by
  intro hm
  have h2 : l.contains e = true := List.elem_iff.2 hm
  rw [hc] at h2
  exact absurd h2 (by simp)

theorem escStep_match_not_mem {ssig e esig : Nat} {s : SystemState}
    (hm : esig &&& ssig = ssig) (hc : s.entities.contains e = false) :
    escStep ssig e esig s =
      { s with
          entities := s.entities ++ [e]
          added_events := s.added_events ++ [e] } := by
  unfold escStep
  rw [if_pos hm, if_neg (by rw [hc]; simp)]

theorem escStep_match_mem {ssig e esig : Nat} {s : SystemState}
    (hm : esig &&& ssig = ssig) (hc : s.entities.contains e = true) :
    escStep ssig e esig s = s := by
  unfold escStep
  rw [if_pos hm, if_pos hc]

theorem escStep_nomatch_mem {ssig e esig : Nat} {s : SystemState}
    (hm : ¬esig &&& ssig = ssig) (hc : s.entities.contains e = true) :
    escStep ssig e esig s =
      { s with
          entities := s.entities.filter fun x => x != e
          removed_events := s.removed_events ++ [e] } := by
  unfold escStep
  rw [if_neg hm, if_pos hc]

theorem escStep_nomatch_not_mem {ssig e esig : Nat} {s : SystemState}
    (hm : ¬esig &&& ssig = ssig) (hc : s.entities.contains e = false) :
    escStep ssig e esig s = s := by
  unfold escStep
  rw [if_neg hm, if_neg (by rw [hc]; simp)]

theorem escStep_contains_self (ssig e esig : Nat) (s : SystemState) :
    (escStep ssig e esig s).entities.contains e = decide (esig &&& ssig = ssig) := by
  by_cases hm : esig &&& ssig = ssig
  · cases hc : s.entities.contains e
    · rw [escStep_match_not_mem hm hc]
      dsimp only
      rw [contains_append_self]
      simp [hm]
    · rw [escStep_match_mem hm hc, hc]
      simp [hm]
  · cases hc : s.entities.contains e
    · rw [escStep_nomatch_not_mem hm hc, hc]
      simp [hm]
    · rw [escStep_nomatch_mem hm hc]
      dsimp only
      rw [contains_filter_self]
      simp [hm]

theorem escStep_contains_other {x e : Nat} (hx : x ≠ e) (ssig esig : Nat) (s : SystemState) :
    (escStep ssig e esig s).entities.contains x = s.entities.contains x := by
  by_cases hm : esig &&& ssig = ssig
  · cases hc : s.entities.contains e
    · rw [escStep_match_not_mem hm hc]
      exact contains_append_other _ hx
    · rw [escStep_match_mem hm hc]
  · cases hc : s.entities.contains e
    · rw [escStep_nomatch_not_mem hm hc]
    · rw [escStep_nomatch_mem hm hc]
      exact contains_filter_other _ hx

theorem destroyStep_of_mem {e : Nat} {s : SystemState} (hc : s.entities.contains e = true) :
    destroyStep e s =
      { s with
          entities := s.entities.filter fun x => x != e
          removed_events := s.removed_events ++ [e] } := by
  unfold destroyStep
  rw [if_pos hc]

theorem destroyStep_of_not_mem {e : Nat} {s : SystemState}
    (hc : s.entities.contains e = false) : destroyStep e s = s := by
  unfold destroyStep
  rw [if_neg (by rw [hc]; simp)]

theorem destroyStep_contains_self (e : Nat) (s : SystemState) :
    (destroyStep e s).entities.contains e = false := by
  cases hc : s.entities.contains e
  · rw [destroyStep_of_not_mem hc, hc]
  · rw [destroyStep_of_mem hc]
    exact contains_filter_self _ _

theorem destroyStep_contains_other {x e : Nat} (hx : x ≠ e) (s : SystemState) :
    (destroyStep e s).entities.contains x = s.entities.contains x := by
  cases hc : s.entities.contains e
  · rw [destroyStep_of_not_mem hc]
  · rw [destroyStep_of_mem hc]
    exact contains_filter_other _ hx

theorem cm_destroyed_lookup {V : Type} (cm : ComponentManager V) (e tn : Nat) :
    (cm.entity_destroyed e).component_arrays.lookup tn =
      (cm.component_arrays.lookup tn).map fun a => a.entity_destroyed e := by
  unfold ComponentManager.entity_destroyed
  exact lookup_map_keyed cm.component_arrays (fun _ a => a.entity_destroyed e) tn

/-- Claim C4: destroying a live entity e removes e from every registered system's
membership set, firing entity_removed exactly once for each set it was in and
leaving systems it was not in untouched, removes e's payload from every registered
component kind's dense array, resets e's stored signature to empty, and puts e's
identifier back on the free list so the very next create_entity returns it. -/
theorem claim_C4_thm {V : Type} [Inhabited V] (w : World V) (e : Nat)
    (h : w.entity_manager.is_valid e = true) :
    (∀ tn st, w.system_manager.systems.lookup tn = some st →
      (w.destroy_entity e).system_manager.systems.lookup tn = some (destroyStep e st) ∧
      (destroyStep e st).entities.contains e = false ∧
      (st.entities.contains e = true →
        (destroyStep e st).removed_events = st.removed_events ++ [e] ∧
        (destroyStep e st).added_events = st.added_events) ∧
      (st.entities.contains e = false → destroyStep e st = st)) ∧
    (∀ tn a, w.component_manager.component_arrays.lookup tn = some a →
      (w.destroy_entity e).component_manager.component_arrays.lookup tn =
        some (a.entity_destroyed e) ∧
      (a.entity_destroyed e).has_data e = false) ∧
    (w.destroy_entity e).entity_manager.signatures e = 0 ∧
    (w.destroy_entity e).entity_manager.available_entities.contains e = true ∧
    ((w.destroy_entity e).entity_manager.create_entity).1 = e := by
  have hw : w.destroy_entity e =
      ⟨w.entity_manager.destroy_entity e, w.component_manager.entity_destroyed e,
        w.system_manager.entity_destroyed e⟩ := by
    unfold World.destroy_entity
    rw [if_pos h]
  rw [hw]
  refine ⟨?_, ?_, ?_, ?_, ?_⟩
  · intro tn st hst
    refine ⟨?_, destroyStep_contains_self e st, fun hc => ?_, fun hc => destroyStep_of_not_mem hc⟩
    · show (w.system_manager.entity_destroyed e).systems.lookup tn = some (destroyStep e st)
      rw [destroyed_systems_lookup, hst]
      rfl
    · rw [destroyStep_of_mem hc]
      exact ⟨rfl, rfl⟩
  · intro tn a hta
    refine ⟨?_, has_data_entity_destroyed_self a e⟩
    show (w.component_manager.entity_destroyed e).component_arrays.lookup tn =
      some (a.entity_destroyed e)
    rw [cm_destroyed_lookup, hta]
    rfl
  · show (w.entity_manager.destroy_entity e).signatures e = 0
    unfold EntityManager.destroy_entity
    rw [if_pos h]
    simp
  · show (w.entity_manager.destroy_entity e).available_entities.contains e = true
    unfold EntityManager.destroy_entity
    rw [if_pos h]
    exact List.elem_iff.2 (List.mem_cons_self _ _)
  · show ((w.entity_manager.destroy_entity e).create_entity).1 = e
    unfold EntityManager.destroy_entity
    rw [if_pos h, create_entity_cons rfl]

/-- Witness for claim C4 at a concrete world holding one live entity with one
component and one system membership. -/
theorem claim_C4_witness :
    EntityManager.is_valid ⟨[], fun _ => 5, 1, 1⟩ 5 = true ∧
    ((World.destroy_entity
        (⟨⟨[], fun _ => 5, 1, 1⟩,
          ⟨[(0, 0)], [(0, (ComponentArray.empty (V := Nat)).insert_data 5 42)], 1⟩,
          ⟨[(7, 3)], [(7, ⟨[5], [5], []⟩)]⟩⟩ : World Nat)
        5).entity_manager.signatures 5 = 0) ∧
    ((World.destroy_entity
        (⟨⟨[], fun _ => 5, 1, 1⟩,
          ⟨[(0, 0)], [(0, (ComponentArray.empty (V := Nat)).insert_data 5 42)], 1⟩,
          ⟨[(7, 3)], [(7, ⟨[5], [5], []⟩)]⟩⟩ : World Nat)
        5).entity_manager.create_entity).1 = 5 ∧
    (destroyStep 5 ⟨[5], [5], []⟩).entities.contains 5 = false :=
  have h := claim_C4_thm
    (⟨⟨[], fun _ => 5, 1, 1⟩,
      ⟨[(0, 0)], [(0, (ComponentArray.empty (V := Nat)).insert_data 5 42)], 1⟩,
      ⟨[(7, 3)], [(7, ⟨[5], [5], []⟩)]⟩⟩ : World Nat) 5 (by decide)
  ⟨by decide, h.2.2.1, h.2.2.2.2, (h.1 7 ⟨[5], [5], []⟩ rfl).2.1⟩

theorem world_destroy_valid {V : Type} {w : World V} {e : Nat}
    (hv : w.entity_manager.is_valid e = true) :
    w.destroy_entity e =
      ⟨w.entity_manager.destroy_entity e, w.component_manager.entity_destroyed e,
        w.system_manager.entity_destroyed e⟩ := by
  unfold World.destroy_entity
  rw [if_pos hv]

theorem world_destroy_invalid {V : Type} {w : World V} {e : Nat}
    (hv : w.entity_manager.is_valid e = false) : w.destroy_entity e = w := by
  unfold World.destroy_entity
  rw [if_neg (by rw [hv]; simp)]

theorem add_registered {V : Type} [Inhabited V] (cm : ComponentManager V) (tn e : Nat)
    (v : V) : ((cm.add_component tn e v).component_types.lookup tn).isSome = true :=
  register_lookup_isSome cm tn

theorem remove_registered {V : Type} [Inhabited V] (cm : ComponentManager V) (tn e : Nat) :
    ((cm.remove_component tn e).component_types.lookup tn).isSome = true :=
  register_lookup_isSome cm tn

theorem world_add_cm {V : Type} [Inhabited V] (w : World V) (tn e : Nat) (v : V) :
    (w.add_component tn e v).component_manager = w.component_manager.add_component tn e v := by
  show (w.component_manager.add_component tn e v).register_component tn =
    w.component_manager.add_component tn e v
  exact register_of_isSome (add_registered w.component_manager tn e v)

theorem world_add_em {V : Type} [Inhabited V] (w : World V) (tn e : Nat) (v : V) :
    (w.add_component tn e v).entity_manager =
      w.entity_manager.set_signature e
        (w.entity_manager.get_signature e |||
          bitOf (((w.component_manager.add_component tn e v).component_types.lookup
            tn).getD 0)) := by
  show w.entity_manager.set_signature e
      (w.entity_manager.get_signature e |||
        bitOf ((((w.component_manager.add_component tn e v).register_component
          tn).component_types.lookup tn).getD 0)) = _
  rw [register_of_isSome (add_registered w.component_manager tn e v)]

theorem world_add_sm {V : Type} [Inhabited V] (w : World V) (tn e : Nat) (v : V) :
    (w.add_component tn e v).system_manager =
      w.system_manager.entity_signature_changed e
        (w.entity_manager.get_signature e |||
          bitOf (((w.component_manager.add_component tn e v).component_types.lookup
            tn).getD 0)) := by
  show w.system_manager.entity_signature_changed e
      (w.entity_manager.get_signature e |||
        bitOf ((((w.component_manager.add_component tn e v).register_component
          tn).component_types.lookup tn).getD 0)) = _
  rw [register_of_isSome (add_registered w.component_manager tn e v)]

theorem world_remove_cm {V : Type} [Inhabited V] (w : World V) (tn e : Nat) :
    (w.remove_component tn e).component_manager = w.component_manager.remove_component tn e := by
  show (w.component_manager.remove_component tn e).register_component tn =
    w.component_manager.remove_component tn e
  exact register_of_isSome (remove_registered w.component_manager tn e)

theorem world_remove_em {V : Type} [Inhabited V] (w : World V) (tn e : Nat) :
    (w.remove_component tn e).entity_manager =
      w.entity_manager.set_signature e
        (w.entity_manager.get_signature e &&&
          clearMask (((w.component_manager.remove_component tn e).component_types.lookup
            tn).getD 0)) := by
  show w.entity_manager.set_signature e
      (w.entity_manager.get_signature e &&&
        clearMask ((((w.component_manager.remove_component tn e).register_component
          tn).component_types.lookup tn).getD 0)) = _
  rw [register_of_isSome (remove_registered w.component_manager tn e)]

theorem world_remove_sm {V : Type} [Inhabited V] (w : World V) (tn e : Nat) :
    (w.remove_component tn e).system_manager =
      w.system_manager.entity_signature_changed e
        (w.entity_manager.get_signature e &&&
          clearMask (((w.component_manager.remove_component tn e).component_types.lookup
            tn).getD 0)) := by
  show w.system_manager.entity_signature_changed e
      (w.entity_manager.get_signature e &&&
        clearMask ((((w.component_manager.remove_component tn e).register_component
          tn).component_types.lookup tn).getD 0)) = _
  rw [register_of_isSome (remove_registered w.component_manager tn e)]

theorem CMWF_init {V : Type} : CMWF (ComponentManager.init (V := V)) := by
  constructor <;> simp [ComponentManager.init]

theorem CMWF_registerKinds {V : Type} [Inhabited V] (ks : List Nat) {cm : ComponentManager V}
    (wf : CMWF cm) : CMWF (registerKinds cm ks) := by
  induction ks generalizing cm with
  | nil => exact wf
  | cons tn rest ih => exact ih (CMWF_register wf tn)

theorem register_next_ge {V : Type} [Inhabited V] (cm : ComponentManager V) (tn : Nat) :
    cm.next_component_type ≤ (cm.register_component tn).next_component_type := by
  rcases register_next cm tn with h | ⟨h, _⟩ <;> omega

theorem registerKinds_next {V : Type} [Inhabited V] (ks : List Nat) (cm : ComponentManager V) :
    (registerKinds cm ks).next_component_type ≤ cm.next_component_type + ks.length := by
  induction ks generalizing cm with
  | nil => simp [registerKinds]
  | cons tn rest ih =>
      have h1 := ih (cm.register_component tn)
      have h2 : (cm.register_component tn).next_component_type ≤ cm.next_component_type + 1 := by
        rcases register_next cm tn with h | ⟨h, _⟩ <;> omega
      calc (registerKinds cm (tn :: rest)).next_component_type
          ≤ (cm.register_component tn).next_component_type + rest.length := h1
        _ ≤ cm.next_component_type + (tn :: rest).length := by
            simp only [List.length_cons]
            omega

theorem registerKinds_arrays {V : Type} [Inhabited V] (ks : List Nat)
    (cm : ComponentManager V) :
    ∀ p ∈ (registerKinds cm ks).component_arrays,
      p ∈ cm.component_arrays ∨ p.2 = ComponentArray.empty := by
  induction ks generalizing cm with
  | nil => intro p hp; exact Or.inl hp
  | cons tn rest ih =>
      intro p hp
      rcases ih (cm.register_component tn) p hp with hp2 | hp2
      · unfold ComponentManager.register_component at hp2
        by_cases h : (cm.component_types.lookup tn).isSome = true
        · rw [if_pos h] at hp2
          exact Or.inl hp2
        · rw [if_neg h] at hp2
          rcases List.mem_append.1 hp2 with hp3 | hp3
          · exact Or.inl hp3
          · simp at hp3
            subst hp3
            exact Or.inr rfl
      · exact Or.inr hp2

theorem set_signature_run_systems (sm : SystemManager) (tn sig : Nat) :
    (sm.set_signature_run tn sig).systems = sm.systems := by
  unfold SystemManager.set_signature_run SystemManager.set_signature
  by_cases h : (sm.systems.lookup tn).isSome = true
  · rw [if_pos h]
  · rw [if_neg h]

theorem configureSystems_systems (ss : List (Nat × Nat)) (sm : SystemManager) :
    ∀ p ∈ (configureSystems sm ss).systems,
      p ∈ sm.systems ∨ p.2 = SystemState.initial := by
  induction ss generalizing sm with
  | nil => intro p hp; exact Or.inl hp
  | cons q rest ih =>
      intro p hp
      rcases ih ((sm.register_system q.1).set_signature_run q.1 q.2) p hp with hp2 | hp2
      · rw [set_signature_run_systems] at hp2
        unfold SystemManager.register_system at hp2
        by_cases h : (sm.systems.lookup q.1).isSome = true
        · rw [if_pos h] at hp2
          exact Or.inl hp2
        · rw [if_neg h] at hp2
          rcases List.mem_append.1 hp2 with hp3 | hp3
          · exact Or.inl hp3
          · simp at hp3
            subst hp3
            exact Or.inr rfl
      · exact Or.inr hp2

theorem winv_configure {V : Type} [Inhabited V] (ks : List Nat) (ss : List (Nat × Nat))
    (hks : ks.length ≤ MAX_COMPONENTS) : WInv (World.configure (V := V) ks ss) := by
  have hem : (World.configure (V := V) ks ss).entity_manager = EntityManager.init := rfl
  constructor
  · exact CMWF_registerKinds ks CMWF_init
  · show (registerKinds (ComponentManager.init (V := V)) ks).next_component_type ≤ MAX_COMPONENTS
    have hb := registerKinds_next (V := V) ks ComponentManager.init
    have h0 : (ComponentManager.init (V := V)).next_component_type = 0 := rfl
    rw [h0] at hb
    omega
  · intro e j hbit
    rw [hem, get_signature_init] at hbit
    rw [Nat.zero_testBit] at hbit
    exact absurd hbit (by simp)
  · intro tn k htn e
    rw [hem, get_signature_init, Nat.zero_testBit]
    unfold cmHas
    cases ho : (World.configure (V := V) ks ss).component_manager.component_arrays.lookup tn
    · rfl
    · rename_i a
      rcases registerKinds_arrays ks ComponentManager.init _ (lookup_mem ho) with hmem | hemp
      · exact absurd hmem (by simp [ComponentManager.init])
      · dsimp only at hemp
        subst hemp
        rfl
  · intro tn st hst hne e
    rcases configureSystems_systems ss SystemManager.init _ (lookup_mem hst) with hmem | hemp
    · exact absurd hmem (by simp [SystemManager.init])
    · dsimp only at hemp
      subst hemp
      rw [hem, get_signature_init, zero_land]
      simp [Ne.symm hne, SystemState.initial]

theorem winv_create {V : Type} [Inhabited V] {w : World V} (hw : WInv w) :
    WInv (w.create_entity).2 := by
  have hcm : (w.create_entity).2.component_manager = w.component_manager := rfl
  have hsm : (w.create_entity).2.system_manager = w.system_manager := rfl
  have hem : ∀ x, (w.create_entity).2.entity_manager.get_signature x =
      w.entity_manager.get_signature x := by
    intro x
    show ((w.entity_manager.create_entity).2).get_signature x = _
    exact get_signature_create w.entity_manager x
  constructor
  · rw [hcm]
    exact hw.cmwf
  · rw [hcm]
    exact hw.next_le
  · intro e j hbit
    rw [hem] at hbit
    rw [hcm]
    exact hw.sig_bound e j hbit
  · intro tn k htn e
    rw [hcm] at htn ⊢
    rw [hem]
    exact hw.sig_inv tn k htn e
  · intro tn st hst hne e
    rw [hsm] at hst hne ⊢
    rw [hem]
    exact hw.mem_inv tn st hst hne e

theorem cmHas_eq_none {V : Type} {cm : ComponentManager V} {tn x : Nat}
    (h : cm.component_arrays.lookup tn = none) : cmHas cm tn x = false := by
  unfold cmHas
  rw [h]

theorem cmHas_eq_some {V : Type} {cm : ComponentManager V} {tn x : Nat} {a : ComponentArray V}
    (h : cm.component_arrays.lookup tn = some a) : cmHas cm tn x = a.has_data x := by
  unfold cmHas
  rw [h]

theorem winv_destroy {V : Type} [Inhabited V] {w : World V} (hw : WInv w) (e : Nat) :
    WInv (w.destroy_entity e) := by
  by_cases hv : w.entity_manager.is_valid e = true
  case neg =>
    rw [Bool.not_eq_true] at hv
    rw [world_destroy_invalid hv]
    exact hw
  case pos =>
  rw [world_destroy_valid hv]
  have hsig : ∀ x, (w.entity_manager.destroy_entity e).get_signature x =
      if x = e then 0 else w.entity_manager.get_signature x := by
    intro x
    by_cases hx : x = e
    · subst hx
      rw [if_pos rfl]
      exact get_signature_destroy_self hv
    · rw [if_neg hx]
      exact get_signature_destroy_other hx
  refine ⟨?_, ?_, ?_, ?_, ?_⟩ <;> dsimp only
  · constructor
    · exact hw.cmwf.keys_nodup
    · exact hw.cmwf.vals_lt
    · exact hw.cmwf.vals_inj
    · show (w.component_manager.component_arrays.map fun p =>
          (p.1, p.2.entity_destroyed e)).map Prod.fst = _
      have hmf : (w.component_manager.component_arrays.map fun p =>
          (p.1, p.2.entity_destroyed e)).map Prod.fst =
          w.component_manager.component_arrays.map Prod.fst :=
        map_fst_keyed _ fun _ (a : ComponentArray V) => a.entity_destroyed e
      rw [hmf]
      exact hw.cmwf.arrays_keys
    · intro p hp
      have hp2 : p ∈ w.component_manager.component_arrays.map fun q =>
          (q.1, q.2.entity_destroyed e) := hp
      obtain ⟨q, hq, hq2⟩ := List.mem_map.1 hp2
      subst hq2
      exact CAWF_entity_destroyed (hw.cmwf.arrays_wf q hq) e
  · exact hw.next_le
  · intro x j hbit
    rw [hsig] at hbit
    by_cases hx : x = e
    · rw [if_pos hx, Nat.zero_testBit] at hbit
      exact absurd hbit (by simp)
    · rw [if_neg hx] at hbit
      exact hw.sig_bound x j hbit
  · intro tn k htn x
    have htn2 : w.component_manager.component_types.lookup tn = some k := htn
    have hbase := hw.sig_inv tn k htn2 x
    rw [hsig]
    cases ho : w.component_manager.component_arrays.lookup tn with
    | none =>
        have hL : cmHas (w.component_manager.entity_destroyed e) tn x = false :=
          cmHas_eq_none (by rw [cm_destroyed_lookup, ho]; rfl)
        rw [hL]
        rw [cmHas_eq_none ho] at hbase
        by_cases hx : x = e
        · rw [if_pos hx, Nat.zero_testBit]
        · rw [if_neg hx, ← hbase]
    | some a =>
        have wfa := hw.cmwf.arrays_wf _ (lookup_mem ho)
        have hL : cmHas (w.component_manager.entity_destroyed e) tn x =
            (a.entity_destroyed e).has_data x :=
          cmHas_eq_some (by rw [cm_destroyed_lookup, ho]; rfl)
        rw [hL]
        rw [cmHas_eq_some ho] at hbase
        by_cases hx : x = e
        · subst hx
          rw [if_pos rfl, Nat.zero_testBit, has_data_entity_destroyed_self]
        · rw [if_neg hx, has_data_entity_destroyed_other wfa hx, hbase]
  · intro tn st2 hst2 hne x
    rw [destroyed_systems_lookup] at hst2
    rw [destroyed_signatures] at hne ⊢
    cases ho : w.system_manager.systems.lookup tn with
    | none =>
        rw [ho] at hst2
        exact absurd hst2 (by simp)
    | some st =>
        rw [ho] at hst2
        simp only [Option.map_some', Option.some.injEq] at hst2
        subst hst2
        rw [hsig]
        by_cases hx : x = e
        · subst hx
          rw [if_pos rfl, destroyStep_contains_self, zero_land]
          simp [Ne.symm hne]
        · rw [if_neg hx, destroyStep_contains_other hx]
          exact hw.mem_inv tn st ho hne x

theorem winv_add {V : Type} [Inhabited V] {w : World V} (hw : WInv w) (tn e : Nat) (v : V)
    (hv : w.entity_manager.is_valid e = true)
    (hcap : (w.component_manager.component_types.lookup tn).isSome = true ∨
      w.component_manager.next_component_type < MAX_COMPONENTS) :
    WInv (w.add_component tn e v) := by
  obtain ⟨k0, hk0⟩ :=
    Option.isSome_iff_exists.1 (register_lookup_isSome w.component_manager tn)
  have hgetD : ((w.component_manager.register_component tn).component_types.lookup
      tn).getD 0 = k0 := by
    rw [hk0]
    rfl
  have htypesA : (w.component_manager.add_component tn e v).component_types =
      (w.component_manager.register_component tn).component_types := rfl
  have hnextA : (w.component_manager.add_component tn e v).next_component_type =
      (w.component_manager.register_component tn).next_component_type := rfl
  have hkA : ((w.component_manager.add_component tn e v).component_types.lookup
      tn).getD 0 = k0 := by
    rw [htypesA, hgetD]
  have wfR : CMWF (w.component_manager.register_component tn) := CMWF_register hw.cmwf tn
  have hnext_le_R : (w.component_manager.register_component tn).next_component_type ≤
      MAX_COMPONENTS := by
    rcases register_next w.component_manager tn with h | ⟨h, hnone⟩
    · rw [h]
      exact hw.next_le
    · rw [h]
      rcases hcap with hc | hc
      · rw [hnone] at hc
        exact absurd hc (by simp)
      · omega
  have hk0lt : k0 < (w.component_manager.register_component tn).next_component_type :=
    wfR.vals_lt _ (lookup_mem hk0)
  have hk032 : k0 < 32 := by
    have h32 := hnext_le_R
    rw [MAX_COMPONENTS_eq] at h32
    omega
  have hnext_ge : w.component_manager.next_component_type ≤
      (w.component_manager.register_component tn).next_component_type :=
    register_next_ge w.component_manager tn
  have hem := world_add_em w tn e v
  rw [hkA] at hem
  have hsig_self : (w.add_component tn e v).entity_manager.get_signature e =
      w.entity_manager.get_signature e ||| bitOf k0 := by
    rw [hem]
    exact get_signature_set_self hv _
  have hsig_other : ∀ x, x ≠ e → (w.add_component tn e v).entity_manager.get_signature x =
      w.entity_manager.get_signature x := by
    intro x hx
    rw [hem]
    exact get_signature_set_other hx _
  have hcm := world_add_cm w tn e v
  have hsm := world_add_sm w tn e v
  rw [hkA] at hsm
  obtain ⟨aR, haR⟩ : ∃ aR,
      (w.component_manager.register_component tn).component_arrays.lookup tn = some aR := by
    refine Option.isSome_iff_exists.1 ?_
    rw [lookup_isSome_congr wfR.arrays_keys, hk0]
    rfl
  have haA : (w.component_manager.add_component tn e v).component_arrays.lookup tn =
      some (aR.insert_data e v) := by
    show (updateArrayAt (w.component_manager.register_component tn).component_arrays tn
      fun a => a.insert_data e v).lookup tn = _
    rw [updateArrayAt_lookup, haR]
    simp
  have haA_other : ∀ tn2, tn2 ≠ tn →
      (w.component_manager.add_component tn e v).component_arrays.lookup tn2 =
        (w.component_manager.register_component tn).component_arrays.lookup tn2 := by
    intro tn2 h2
    show (updateArrayAt (w.component_manager.register_component tn).component_arrays tn
      fun a => a.insert_data e v).lookup tn2 = _
    rw [updateArrayAt_lookup]
    cases ho : (w.component_manager.register_component tn).component_arrays.lookup tn2 <;>
      simp [h2]
  have haR_rel : ∀ x, x ≠ e →
      aR.has_data x = (w.entity_manager.get_signature x).testBit k0 := by
    intro x hx
    by_cases hreg : (w.component_manager.component_types.lookup tn).isSome = true
    · have heq := register_of_isSome hreg
      have hk0c := hk0
      rw [heq] at hk0c
      have haRc := haR
      rw [heq] at haRc
      have hbase := hw.sig_inv tn k0 hk0c x
      rw [cmHas_eq_some haRc] at hbase
      exact hbase
    · have hnone : w.component_manager.component_types.lookup tn = none := by
        cases hoo : w.component_manager.component_types.lookup tn
        · rfl
        · rw [hoo] at hreg
          exact absurd (by rfl) hreg
      have hanone : w.component_manager.component_arrays.lookup tn = none := by
        have hc := lookup_isSome_congr hw.cmwf.arrays_keys tn
        rw [hnone] at hc
        cases hoo : w.component_manager.component_arrays.lookup tn
        · rfl
        · rw [hoo] at hc
          exact absurd hc (by simp)
      have haR2 := register_arrays_lookup_of_none hnone hanone
      rw [haR] at haR2
      have haRempty : aR = ComponentArray.empty := Option.some.inj haR2
      have hk0next : k0 = w.component_manager.next_component_type := by
        have hl := register_lookup_of_none hnone
        rw [hk0] at hl
        exact Option.some.inj hl
      subst haRempty
      rw [show (ComponentArray.empty (V := V)).has_data x = false from rfl]
      cases hbit : (w.entity_manager.get_signature x).testBit k0
      · rfl
      · have h2 := hw.sig_bound x k0 hbit
        exfalso
        omega
  constructor
  · rw [hcm]
    constructor
    · exact wfR.keys_nodup
    · exact wfR.vals_lt
    · exact wfR.vals_inj
    · show (updateArrayAt (w.component_manager.register_component tn).component_arrays tn
        fun a => a.insert_data e v).map Prod.fst = _
      rw [updateArrayAt_keys]
      exact wfR.arrays_keys
    · intro p hp
      have hp2 : p ∈ updateArrayAt
          (w.component_manager.register_component tn).component_arrays tn
          (fun a => a.insert_data e v) := hp
      unfold updateArrayAt at hp2
      obtain ⟨q, hq, hq2⟩ := List.mem_map.1 hp2
      subst hq2
      dsimp only
      by_cases hqt : q.1 = tn
      · rw [if_pos hqt]
        exact CAWF_insert (wfR.arrays_wf q hq) e v
      · rw [if_neg hqt]
        exact wfR.arrays_wf q hq
  · rw [hcm]
    show (w.component_manager.add_component tn e v).next_component_type ≤ MAX_COMPONENTS
    rw [hnextA]
    exact hnext_le_R
  · intro x j hbit
    rw [hcm]
    show j < (w.component_manager.add_component tn e v).next_component_type
    rw [hnextA]
    by_cases hx : x = e
    · subst hx
      rw [hsig_self, testBit_or_bitOf hk032] at hbit
      simp only [Bool.or_eq_true, decide_eq_true_eq] at hbit
      rcases hbit with hb | hb
      · exact lt_of_lt_of_le (hw.sig_bound x j hb) hnext_ge
      · subst hb
        exact hk0lt
    · rw [hsig_other x hx] at hbit
      exact lt_of_lt_of_le (hw.sig_bound x j hbit) hnext_ge
  · intro tn2 k2 htn2 x
    rw [hcm] at htn2 ⊢
    have htn2R : (w.component_manager.register_component tn).component_types.lookup tn2 =
        some k2 := by
      rw [← htypesA]
      exact htn2
    by_cases h2 : tn2 = tn
    · subst h2
      have hk2 : k2 = k0 := by
        rw [htn2R] at hk0
        exact Option.some.inj hk0
      subst hk2
      rw [cmHas_eq_some haA, has_data_insert]
      by_cases hx : x = e
      · subst hx
        rw [hsig_self, testBit_or_bitOf hk032]
        simp
      · rw [hsig_other x hx, haR_rel x hx]
        simp [hx]
    · have htn2cm : w.component_manager.component_types.lookup tn2 = some k2 := by
        rw [← (register_lookup_other w.component_manager h2).1]
        exact htn2R
      have hk2ne : k2 ≠ k0 := by
        intro hEq
        subst hEq
        exact h2 (wfR.vals_inj _ (lookup_mem htn2R) _ (lookup_mem hk0) rfl)
      have harr : (w.component_manager.add_component tn e v).component_arrays.lookup tn2 =
          w.component_manager.component_arrays.lookup tn2 := by
        rw [haA_other tn2 h2, (register_lookup_other w.component_manager h2).2]
      have hHasEq : cmHas (w.component_manager.add_component tn e v) tn2 x =
          cmHas w.component_manager tn2 x := by
        unfold cmHas
        rw [harr]
      rw [hHasEq, hw.sig_inv tn2 k2 htn2cm x]
      by_cases hx : x = e
      · subst hx
        rw [hsig_self, testBit_or_bitOf hk032]
        simp [hk2ne]
      · rw [hsig_other x hx]
  · intro tn2 st2 hst2 hne x
    rw [hsm] at hst2
    rw [esc_systems_lookup] at hst2
    rw [hsm, esc_signatures] at hne
    cases ho : w.system_manager.systems.lookup tn2 with
    | none =>
        rw [ho] at hst2
        exact absurd hst2 (by simp)
    | some st =>
        rw [ho] at hst2
        simp only [Option.map_some', Option.some.injEq] at hst2
        subst hst2
        rw [hsm, esc_signatures]
        by_cases hx : x = e
        · subst hx
          rw [escStep_contains_self, hsig_self]
        · rw [escStep_contains_other hx, hsig_other x hx]
          exact hw.mem_inv tn2 st ho hne x

theorem winv_remove {V : Type} [Inhabited V] {w : World V} (hw : WInv w) (tn e : Nat)
    (hv : w.entity_manager.is_valid e = true)
    (hcap : (w.component_manager.component_types.lookup tn).isSome = true ∨
      w.component_manager.next_component_type < MAX_COMPONENTS) :
    WInv (w.remove_component tn e) := by
  obtain ⟨k0, hk0⟩ :=
    Option.isSome_iff_exists.1 (register_lookup_isSome w.component_manager tn)
  have hgetD : ((w.component_manager.register_component tn).component_types.lookup
      tn).getD 0 = k0 := by
    rw [hk0]
    rfl
  have htypesA : (w.component_manager.remove_component tn e).component_types =
      (w.component_manager.register_component tn).component_types := rfl
  have hnextA : (w.component_manager.remove_component tn e).next_component_type =
      (w.component_manager.register_component tn).next_component_type := rfl
  have hkA : ((w.component_manager.remove_component tn e).component_types.lookup
      tn).getD 0 = k0 := by
    rw [htypesA, hgetD]
  have wfR : CMWF (w.component_manager.register_component tn) := CMWF_register hw.cmwf tn
  have hnext_le_R : (w.component_manager.register_component tn).next_component_type ≤
      MAX_COMPONENTS := by
    rcases register_next w.component_manager tn with h | ⟨h, hnone⟩
    · rw [h]
      exact hw.next_le
    · rw [h]
      rcases hcap with hc | hc
      · rw [hnone] at hc
        exact absurd hc (by simp)
      · omega
  have hk0lt : k0 < (w.component_manager.register_component tn).next_component_type :=
    wfR.vals_lt _ (lookup_mem hk0)
  have hk032 : k0 < 32 := by
    have h32 := hnext_le_R
    rw [MAX_COMPONENTS_eq] at h32
    omega
  have hnext_ge : w.component_manager.next_component_type ≤
      (w.component_manager.register_component tn).next_component_type :=
    register_next_ge w.component_manager tn
  have hem := world_remove_em w tn e
  rw [hkA] at hem
  have hsig_self : (w.remove_component tn e).entity_manager.get_signature e =
      w.entity_manager.get_signature e &&& clearMask k0 := by
    rw [hem]
    exact get_signature_set_self hv _
  have hsig_other : ∀ x, x ≠ e → (w.remove_component tn e).entity_manager.get_signature x =
      w.entity_manager.get_signature x := by
    intro x hx
    rw [hem]
    exact get_signature_set_other hx _
  have hcm := world_remove_cm w tn e
  have hsm := world_remove_sm w tn e
  rw [hkA] at hsm
  obtain ⟨aR, haR⟩ : ∃ aR,
      (w.component_manager.register_component tn).component_arrays.lookup tn = some aR := by
    refine Option.isSome_iff_exists.1 ?_
    rw [lookup_isSome_congr wfR.arrays_keys, hk0]
    rfl
  have wfaR : CAWF aR := wfR.arrays_wf _ (lookup_mem haR)
  have haA : (w.component_manager.remove_component tn e).component_arrays.lookup tn =
      some (aR.remove_data e) := by
    show (updateArrayAt (w.component_manager.register_component tn).component_arrays tn
      fun a => a.remove_data e).lookup tn = _
    rw [updateArrayAt_lookup, haR]
    simp
  have haA_other : ∀ tn2, tn2 ≠ tn →
      (w.component_manager.remove_component tn e).component_arrays.lookup tn2 =
        (w.component_manager.register_component tn).component_arrays.lookup tn2 := by
    intro tn2 h2
    show (updateArrayAt (w.component_manager.register_component tn).component_arrays tn
      fun a => a.remove_data e).lookup tn2 = _
    rw [updateArrayAt_lookup]
    cases ho : (w.component_manager.register_component tn).component_arrays.lookup tn2 <;>
      simp [h2]
  have haR_rel : ∀ x, x ≠ e →
      aR.has_data x = (w.entity_manager.get_signature x).testBit k0 := by
    intro x hx
    by_cases hreg : (w.component_manager.component_types.lookup tn).isSome = true
    · have heq := register_of_isSome hreg
      have hk0c := hk0
      rw [heq] at hk0c
      have haRc := haR
      rw [heq] at haRc
      have hbase := hw.sig_inv tn k0 hk0c x
      rw [cmHas_eq_some haRc] at hbase
      exact hbase
    · have hnone : w.component_manager.component_types.lookup tn = none := by
        cases hoo : w.component_manager.component_types.lookup tn
        · rfl
        · rw [hoo] at hreg
          exact absurd (by rfl) hreg
      have hanone : w.component_manager.component_arrays.lookup tn = none := by
        have hc := lookup_isSome_congr hw.cmwf.arrays_keys tn
        rw [hnone] at hc
        cases hoo : w.component_manager.component_arrays.lookup tn
        · rfl
        · rw [hoo] at hc
          exact absurd hc (by simp)
      have haR2 := register_arrays_lookup_of_none hnone hanone
      rw [haR] at haR2
      have haRempty : aR = ComponentArray.empty := Option.some.inj haR2
      have hk0next : k0 = w.component_manager.next_component_type := by
        have hl := register_lookup_of_none hnone
        rw [hk0] at hl
        exact Option.some.inj hl
      subst haRempty
      rw [show (ComponentArray.empty (V := V)).has_data x = false from rfl]
      cases hbit : (w.entity_manager.get_signature x).testBit k0
      · rfl
      · have h2 := hw.sig_bound x k0 hbit
        exfalso
        omega
  constructor
  · rw [hcm]
    constructor
    · exact wfR.keys_nodup
    · exact wfR.vals_lt
    · exact wfR.vals_inj
    · show (updateArrayAt (w.component_manager.register_component tn).component_arrays tn
        fun a => a.remove_data e).map Prod.fst = _
      rw [updateArrayAt_keys]
      exact wfR.arrays_keys
    · intro p hp
      have hp2 : p ∈ updateArrayAt
          (w.component_manager.register_component tn).component_arrays tn
          (fun a => a.remove_data e) := hp
      unfold updateArrayAt at hp2
      obtain ⟨q, hq, hq2⟩ := List.mem_map.1 hp2
      subst hq2
      dsimp only
      by_cases hqt : q.1 = tn
      · rw [if_pos hqt]
        exact CAWF_remove (wfR.arrays_wf q hq) e
      · rw [if_neg hqt]
        exact wfR.arrays_wf q hq
  · rw [hcm]
    show (w.component_manager.remove_component tn e).next_component_type ≤ MAX_COMPONENTS
    rw [hnextA]
    exact hnext_le_R
  · intro x j hbit
    rw [hcm]
    show j < (w.component_manager.remove_component tn e).next_component_type
    rw [hnextA]
    by_cases hx : x = e
    · subst hx
      rw [hsig_self, testBit_and_clearMask hk032] at hbit
      simp only [Bool.and_eq_true, decide_eq_true_eq] at hbit
      exact lt_of_lt_of_le (hw.sig_bound x j hbit.1) hnext_ge
    · rw [hsig_other x hx] at hbit
      exact lt_of_lt_of_le (hw.sig_bound x j hbit) hnext_ge
  · intro tn2 k2 htn2 x
    rw [hcm] at htn2 ⊢
    have htn2R : (w.component_manager.register_component tn).component_types.lookup tn2 =
        some k2 := by
      rw [← htypesA]
      exact htn2
    by_cases h2 : tn2 = tn
    · subst h2
      have hk2 : k2 = k0 := by
        rw [htn2R] at hk0
        exact Option.some.inj hk0
      subst hk2
      rw [cmHas_eq_some haA]
      by_cases hx : x = e
      · subst hx
        rw [has_data_remove_self, hsig_self, testBit_and_clearMask hk032]
        simp
      · rw [has_data_remove_other wfaR hx, hsig_other x hx, haR_rel x hx]
    · have htn2cm : w.component_manager.component_types.lookup tn2 = some k2 := by
        rw [← (register_lookup_other w.component_manager h2).1]
        exact htn2R
      have hk2ne : k2 ≠ k0 := by
        intro hEq
        subst hEq
        exact h2 (wfR.vals_inj _ (lookup_mem htn2R) _ (lookup_mem hk0) rfl)
      have hk232 : k2 < 32 := by
        have hlt := hw.cmwf.vals_lt _ (lookup_mem htn2cm)
        have hle := hw.next_le
        rw [MAX_COMPONENTS_eq] at hle
        omega
      have harr : (w.component_manager.remove_component tn e).component_arrays.lookup tn2 =
          w.component_manager.component_arrays.lookup tn2 := by
        rw [haA_other tn2 h2, (register_lookup_other w.component_manager h2).2]
      have hHasEq : cmHas (w.component_manager.remove_component tn e) tn2 x =
          cmHas w.component_manager tn2 x := by
        unfold cmHas
        rw [harr]
      rw [hHasEq, hw.sig_inv tn2 k2 htn2cm x]
      by_cases hx : x = e
      · subst hx
        rw [hsig_self, testBit_and_clearMask hk032]
        simp [hk2ne, hk232]
      · rw [hsig_other x hx]
  · intro tn2 st2 hst2 hne x
    rw [hsm] at hst2
    rw [esc_systems_lookup] at hst2
    rw [hsm, esc_signatures] at hne
    cases ho : w.system_manager.systems.lookup tn2 with
    | none =>
        rw [ho] at hst2
        exact absurd hst2 (by simp)
    | some st =>
        rw [ho] at hst2
        simp only [Option.map_some', Option.some.injEq] at hst2
        subst hst2
        rw [hsm, esc_signatures]
        by_cases hx : x = e
        · subst hx
          rw [escStep_contains_self, hsig_self]
        · rw [escStep_contains_other hx, hsig_other x hx]
          exact hw.mem_inv tn2 st ho hne x

theorem wreach_winv {V : Type} [Inhabited V] {w : World V} (h : WReach w) : WInv w := by
  induction h with
  | base ks ss hks => exact winv_configure ks ss hks
  | create w _ ih => exact winv_create ih
  | destroy w e _ ih => exact winv_destroy ih e
  | add w tn e v _ hv hcap ih => exact winv_add ih tn e v hv hcap
  | remove w tn e _ hv hcap ih => exact winv_remove ih tn e hv hcap

theorem hasComponent_eq {V : Type} [Inhabited V] {w : World V} (hi : WInv w) {tn k : Nat}
    (htn : w.component_manager.component_types.lookup tn = some k) (e : Nat) :
    w.has_component tn e = Except.ok ((w.entity_manager.get_signature e).testBit k) := by
  have hsome : (w.component_manager.component_arrays.lookup tn).isSome = true := by
    rw [lookup_isSome_congr hi.cmwf.arrays_keys, htn]
    rfl
  obtain ⟨a, ha⟩ := Option.isSome_iff_exists.1 hsome
  have hs := hi.sig_inv tn k htn e
  rw [cmHas_eq_some ha] at hs
  unfold World.has_component ComponentManager.has_component
  rw [ha]
  show Except.ok (a.has_data e) = _
  rw [hs]

/-- Claim C2, counterexample: add_component on an entity that was never created
stores the payload in the dense array (has_component becomes true) but
set_signature refuses to touch a dead entity's signature, so the signature bit
stays clear: the claimed biconditional fails on interleavings that touch dead
entities. -/
theorem claim_C2_counterexample :
    World.has_component (World.add_component (World.configure (V := Nat) [0] []) 0 5 42) 0 5 =
      Except.ok true ∧
    (World.get_signature (World.add_component (World.configure (V := Nat) [0] []) 0 5 42)
        5).testBit 0 = false := by
  constructor
  · rfl
  · have h1 : (World.add_component (World.configure (V := Nat) [0] []) 0 5
        42).entity_manager =
        EntityManager.set_signature EntityManager.init 5
          (EntityManager.get_signature EntityManager.init 5 ||| bitOf 0) := by
      rw [world_add_em]
      rw [show (World.configure (V := Nat) [0] []).entity_manager = EntityManager.init from
        rfl]
      rw [show (((World.configure (V := Nat) [0] []).component_manager.add_component 0 5
        42).component_types.lookup 0).getD 0 = 0 from rfl]
    show ((World.add_component (World.configure (V := Nat) [0] []) 0 5
      42).entity_manager.get_signature 5).testBit 0 = false
    rw [h1, set_signature_init, get_signature_init, Nat.zero_testBit]

/-- Claim C2, amended: in every world reachable from a startup configuration by
create / destroy / add_component / remove_component where component mutations are
applied to live entities only (and the number of distinct kinds stays within the
signature width), has_component of a registered kind returns exactly the value of
that kind's bit in get_signature, for every entity, live or dead. -/
theorem claim_C2_amended {V : Type} [Inhabited V] (w : World V) (hw : WReach w) (tn k : Nat)
    (htn : w.component_manager.component_types.lookup tn = some k) (e : Nat) :
    w.has_component tn e = Except.ok ((w.get_signature e).testBit k) :=
  hasComponent_eq (wreach_winv hw) htn e

/-- Witness for the amended claim C2 at a freshly configured world. -/
theorem claim_C2_witness :
    (World.configure (V := Nat) [5] []).component_manager.component_types.lookup 5 =
      some 0 ∧
    World.has_component (World.configure (V := Nat) [5] []) 5 3 =
      Except.ok ((World.get_signature (World.configure (V := Nat) [5] []) 3).testBit 0) :=
  ⟨rfl, claim_C2_amended _ (WReach.base [5] [] (by decide)) 5 0 rfl 3⟩

theorem escStep_invariant_of_bits {a b : Nat} (ha32 : a < 32) (hb32 : b < 32)
    {sig0 sig1 : Nat}
    (hba : sig1.testBit a = sig0.testBit a) (hbb : sig1.testBit b = sig0.testBit b)
    {st : SystemState} {e : Nat}
    (hc : st.entities.contains e =
      decide (sig0 &&& (bitOf a ||| bitOf b) = (bitOf a ||| bitOf b))) :
    escStep (bitOf a ||| bitOf b) e sig1 st = st := by
  by_cases hm : sig0 &&& (bitOf a ||| bitOf b) = (bitOf a ||| bitOf b)
  · have h1 := (land_or_two_eq_iff ha32 hb32).1 hm
    have hm1 : sig1 &&& (bitOf a ||| bitOf b) = (bitOf a ||| bitOf b) :=
      (land_or_two_eq_iff ha32 hb32).2 ⟨by rw [hba]; exact h1.1, by rw [hbb]; exact h1.2⟩
    have hcc : st.entities.contains e = true := by
      rw [hc]
      simp [hm]
    exact escStep_match_mem hm1 hcc
  · have hm1 : ¬sig1 &&& (bitOf a ||| bitOf b) = (bitOf a ||| bitOf b) := by
      intro hP
      have h1 := (land_or_two_eq_iff ha32 hb32).1 hP
      exact hm ((land_or_two_eq_iff ha32 hb32).2
        ⟨by rw [← hba]; exact h1.1, by rw [← hbb]; exact h1.2⟩)
    have hcc : st.entities.contains e = false := by
      rw [hc]
      simp [hm]
    exact escStep_nomatch_not_mem hm1 hcc

/-- Claim C1, amended: in any world reachable from a startup configuration (system
signatures bound at configuration time) by mutations on live entities, for a
registered system requiring the two distinct kinds a and b: an entity is in the
membership set iff it has both components; attaching the second missing kind fires
entity_added exactly once (one appended added-event, membership gained, no removed
event); removing either kind while a member fires entity_removed exactly once (one
appended removed-event, membership lost, no added event); and attaching or
detaching an unrelated kind causes no membership transition and no events for this
system. -/
theorem claim_C1_amended {V : Type} [Inhabited V] (w : World V) (hw : WReach w)
    (tnS : Nat) (st : SystemState)
    (hst : w.system_manager.systems.lookup tnS = some st)
    (a b tnA tnB : Nat) (hab : a ≠ b)
    (hka : w.component_manager.component_types.lookup tnA = some a)
    (hkb : w.component_manager.component_types.lookup tnB = some b)
    (hsig : (w.system_manager.signatures.lookup tnS).getD 0 = bitOf a ||| bitOf b) :
    (∀ e, st.entities.contains e = true ↔
      (w.has_component tnA e = Except.ok true ∧
        w.has_component tnB e = Except.ok true)) ∧
    (∀ e v, w.entity_manager.is_valid e = true →
      w.has_component tnA e = Except.ok true → w.has_component tnB e = Except.ok false →
      (w.add_component tnB e v).system_manager.systems.lookup tnS =
        some { st with
                 entities := st.entities ++ [e]
                 added_events := st.added_events ++ [e] }) ∧
    (∀ e tnX x, w.entity_manager.is_valid e = true → st.entities.contains e = true →
      (tnX = tnA ∧ x = a) ∨ (tnX = tnB ∧ x = b) →
      (w.remove_component tnX e).system_manager.systems.lookup tnS =
        some { st with
                 entities := st.entities.filter (fun y => y != e)
                 removed_events := st.removed_events ++ [e] }) ∧
    (∀ e v tnC c, w.entity_manager.is_valid e = true →
      w.component_manager.component_types.lookup tnC = some c → c ≠ a → c ≠ b →
      (w.add_component tnC e v).system_manager.systems.lookup tnS = some st ∧
      (w.remove_component tnC e).system_manager.systems.lookup tnS = some st) := by
  have hi := wreach_winv hw
  have hMC := hi.next_le
  rw [MAX_COMPONENTS_eq] at hMC
  have ha32 : a < 32 := by
    have h1 := hi.cmwf.vals_lt _ (lookup_mem hka)
    omega
  have hb32 : b < 32 := by
    have h1 := hi.cmwf.vals_lt _ (lookup_mem hkb)
    omega
  have hssig_ne : (w.system_manager.signatures.lookup tnS).getD 0 ≠ 0 := by
    rw [hsig]
    exact bit_or_ne_zero ha32
  have hmem := hi.mem_inv tnS st hst hssig_ne
  rw [hsig] at hmem
  have hhasA : ∀ x, w.has_component tnA x =
      Except.ok ((w.entity_manager.get_signature x).testBit a) := fun x =>
    hasComponent_eq hi hka x
  have hhasB : ∀ x, w.has_component tnB x =
      Except.ok ((w.entity_manager.get_signature x).testBit b) := fun x =>
    hasComponent_eq hi hkb x
  refine ⟨?_, ?_, ?_, ?_⟩
  · intro e
    constructor
    · intro h
      rw [hmem e] at h
      simp only [decide_eq_true_eq] at h
      have hbits := (land_or_two_eq_iff ha32 hb32).1 h
      rw [hhasA e, hhasB e, hbits.1, hbits.2]
      exact ⟨rfl, rfl⟩
    · rintro ⟨h1, h2⟩
      rw [hhasA e] at h1
      rw [hhasB e] at h2
      simp only [Except.ok.injEq] at h1 h2
      rw [hmem e]
      simp only [decide_eq_true_eq]
      exact (land_or_two_eq_iff ha32 hb32).2 ⟨h1, h2⟩
  · intro e v hve hA hB
    rw [hhasA e] at hA
    rw [hhasB e] at hB
    simp only [Except.ok.injEq] at hA hB
    have hregB : (w.component_manager.component_types.lookup tnB).isSome = true := by
      rw [hkb]
      rfl
    have hkB : ((w.component_manager.add_component tnB e v).component_types.lookup
        tnB).getD 0 = b := by
      show ((w.component_manager.register_component tnB).component_types.lookup
        tnB).getD 0 = b
      rw [register_of_isSome hregB, hkb]
      rfl
    have hsm := world_add_sm w tnB e v
    rw [hkB] at hsm
    have hmatch : (w.entity_manager.get_signature e ||| bitOf b) &&&
        (bitOf a ||| bitOf b) = bitOf a ||| bitOf b := by
      refine (land_or_two_eq_iff ha32 hb32).2 ⟨?_, ?_⟩
      · rw [testBit_or_bitOf hb32, hA]
        simp
      · rw [testBit_or_bitOf hb32]
        simp
    have hnotmem : st.entities.contains e = false := by
      rw [hmem e]
      simp only [decide_eq_false_iff_not]
      intro hP
      have hP2 := ((land_or_two_eq_iff ha32 hb32).1 hP).2
      rw [hB] at hP2
      exact absurd hP2 (by simp)
    rw [hsm, esc_systems_lookup, hst]
    simp only [Option.map_some']
    rw [hsig, escStep_match_not_mem hmatch hnotmem]
  · intro e tnX x hve hcont hXor
    rcases hXor with ⟨rfl, rfl⟩ | ⟨rfl, rfl⟩
    · have hregX : (w.component_manager.component_types.lookup tnX).isSome = true := by
        rw [hka]
        rfl
      have hkX : ((w.component_manager.remove_component tnX e).component_types.lookup
          tnX).getD 0 = x := by
        show ((w.component_manager.register_component tnX).component_types.lookup
          tnX).getD 0 = x
        rw [register_of_isSome hregX, hka]
        rfl
      have hsm := world_remove_sm w tnX e
      rw [hkX] at hsm
      have hnomatch : ¬((w.entity_manager.get_signature e &&& clearMask x) &&&
          (bitOf x ||| bitOf b) = bitOf x ||| bitOf b) := by
        intro hP
        have hbits := (land_or_two_eq_iff ha32 hb32).1 hP
        have hx : (w.entity_manager.get_signature e &&& clearMask x).testBit x = false := by
          rw [testBit_and_clearMask ha32]
          simp
        rw [hbits.1] at hx
        exact absurd hx (by simp)
      rw [hsm, esc_systems_lookup, hst]
      simp only [Option.map_some']
      rw [hsig, escStep_nomatch_mem hnomatch hcont]
    · have hregX : (w.component_manager.component_types.lookup tnX).isSome = true := by
        rw [hkb]
        rfl
      have hkX : ((w.component_manager.remove_component tnX e).component_types.lookup
          tnX).getD 0 = x := by
        show ((w.component_manager.register_component tnX).component_types.lookup
          tnX).getD 0 = x
        rw [register_of_isSome hregX, hkb]
        rfl
      have hsm := world_remove_sm w tnX e
      rw [hkX] at hsm
      have hnomatch : ¬((w.entity_manager.get_signature e &&& clearMask x) &&&
          (bitOf a ||| bitOf x) = bitOf a ||| bitOf x) := by
        intro hP
        have hbits := (land_or_two_eq_iff ha32 hb32).1 hP
        have hx : (w.entity_manager.get_signature e &&& clearMask x).testBit x = false := by
          rw [testBit_and_clearMask hb32]
          simp
        rw [hbits.2] at hx
        exact absurd hx (by simp)
      rw [hsm, esc_systems_lookup, hst]
      simp only [Option.map_some']
      rw [hsig, escStep_nomatch_mem hnomatch hcont]
  · intro e v tnC c hve hkc hca hcb
    have hc32 : c < 32 := by
      have h1 := hi.cmwf.vals_lt _ (lookup_mem hkc)
      omega
    have hregC : (w.component_manager.component_types.lookup tnC).isSome = true := by
      rw [hkc]
      rfl
    constructor
    · have hkC : ((w.component_manager.add_component tnC e v).component_types.lookup
          tnC).getD 0 = c := by
        show ((w.component_manager.register_component tnC).component_types.lookup
          tnC).getD 0 = c
        rw [register_of_isSome hregC, hkc]
        rfl
      have hsm := world_add_sm w tnC e v
      rw [hkC] at hsm
      have hba2 : (w.entity_manager.get_signature e ||| bitOf c).testBit a =
          (w.entity_manager.get_signature e).testBit a := by
        rw [testBit_or_bitOf hc32]
        simp [Ne.symm hca]
      have hbb2 : (w.entity_manager.get_signature e ||| bitOf c).testBit b =
          (w.entity_manager.get_signature e).testBit b := by
        rw [testBit_or_bitOf hc32]
        simp [Ne.symm hcb]
      rw [hsm, esc_systems_lookup, hst]
      simp only [Option.map_some']
      rw [hsig, escStep_invariant_of_bits ha32 hb32 hba2 hbb2 (hmem e)]
    · have hkC : ((w.component_manager.remove_component tnC e).component_types.lookup
          tnC).getD 0 = c := by
        show ((w.component_manager.register_component tnC).component_types.lookup
          tnC).getD 0 = c
        rw [register_of_isSome hregC, hkc]
        rfl
      have hsm := world_remove_sm w tnC e
      rw [hkC] at hsm
      have hba2 : (w.entity_manager.get_signature e &&& clearMask c).testBit a =
          (w.entity_manager.get_signature e).testBit a := by
        rw [testBit_and_clearMask hc32]
        simp [ha32, Ne.symm hca]
      have hbb2 : (w.entity_manager.get_signature e &&& clearMask c).testBit b =
          (w.entity_manager.get_signature e).testBit b := by
        rw [testBit_and_clearMask hc32]
        simp [hb32, Ne.symm hcb]
      rw [hsm, esc_systems_lookup, hst]
      simp only [Option.map_some']
      rw [hsig, escStep_invariant_of_bits ha32 hb32 hba2 hbb2 (hmem e)]

/-- Claim C1, counterexample: starting from a configured world with kinds 10 and 11
and a system 99 requiring both bits, adding both components to entity 5 — which was
never created, so it is not live — leaves the system's entity set empty even though
has_component reports true for both kinds. The dead entity's signature writes are
silently dropped by set_signature, so the signature seen by
entity_signature_changed never accumulates both bits and the system never admits
the entity, contradicting the unconditional membership rule. -/
theorem claim_C1_counterexample :
    World.has_component (World.add_component (World.add_component
        (World.configure (V := Nat) [10, 11] [(99, bitOf 0 ||| bitOf 1)]) 10 5 0)
        11 5 0) 10 5 = Except.ok true ∧
    World.has_component (World.add_component (World.add_component
        (World.configure (V := Nat) [10, 11] [(99, bitOf 0 ||| bitOf 1)]) 10 5 0)
        11 5 0) 11 5 = Except.ok true ∧
    (World.add_component (World.add_component
        (World.configure (V := Nat) [10, 11] [(99, bitOf 0 ||| bitOf 1)]) 10 5 0)
        11 5 0).system_manager.systems.lookup 99 = some SystemState.initial ∧
    SystemState.initial.entities.contains 5 = false := by
  refine ⟨rfl, rfl, ?_, rfl⟩
  have e0 : (World.configure (V := Nat) [10, 11]
      [(99, bitOf 0 ||| bitOf 1)]).entity_manager = EntityManager.init := rfl
  have h2 : (World.add_component (World.configure (V := Nat) [10, 11]
      [(99, bitOf 0 ||| bitOf 1)]) 10 5 0).entity_manager = EntityManager.init := by
    rw [world_add_em, e0, get_signature_init, set_signature_init]
  rw [world_add_sm, h2, get_signature_init, world_add_sm, e0, get_signature_init]
  rfl

/-- Witness for claim C1: the amended theorem applied to the concrete configured
world with kinds 10 and 11 mapped to bits 0 and 1 and system 99 requiring both
bits, instantiating the membership characterization at entity 3. -/
theorem claim_C1_witness :
    SystemState.initial.entities.contains 3 = true ↔
      (World.has_component (World.configure (V := Nat) [10, 11]
          [(99, bitOf 0 ||| bitOf 1)]) 10 3 = Except.ok true ∧
        World.has_component (World.configure (V := Nat) [10, 11]
          [(99, bitOf 0 ||| bitOf 1)]) 11 3 = Except.ok true) :=
  (claim_C1_amended _ (WReach.base [10, 11] [(99, bitOf 0 ||| bitOf 1)]
      (by decide)) 99 SystemState.initial rfl 0 1 10 11 (by decide) rfl rfl rfl).1 3

end CorePulse
